import Mathlib

/-!
Verification of the featherdb core storage engine against its
natural-language specification.

The Go source is shallowly embedded: pure fragments become Lean functions,
stateful fragments become explicit state passing, machine integers become
`Nat` with explicit truncation where the code truncates, and fallible code
returns `Except`.  Go `map` values are embedded as association lists with
Go assignment semantics (`insert` replaces an existing binding in place,
otherwise appends).  JSON numbers are embedded as integers; none of the
verified properties depends on floating-point arithmetic.

Definitions carry comments naming the Go function they embed.  A few
operations of the in-memory model (`Collection.Insert`, `Database.CreateCollection`,
`Database.GetCollection`) are not part of the available source; they are
modelled from the specification and marked `Modelled from the spec:`.
-/

namespace FeatherDB

/-! ## Association-list maps with Go map semantics -/

/-- Lookup in an association list, mirroring Go `m[k]` (comma-ok form). -/
def alookup {β : Type} (m : List (String × β)) (k : String) : Option β :=
  match m.find? (fun p => p.fst == k) with
  | some p => some p.snd
  | none => none

/-- Go map assignment `m[k] = v`: replace the existing binding in place,
otherwise append a new binding. -/
def ainsert {β : Type} (m : List (String × β)) (k : String) (v : β) :
    List (String × β) :=
  match m with
  | [] => [(k, v)]
  | (k0, v0) :: rest =>
    if k0 == k then (k, v) :: rest else (k0, v0) :: ainsert rest k v

/-- Go `delete(m, k)`: remove the binding for `k` if present. -/
def aerase {β : Type} (m : List (String × β)) (k : String) :
    List (String × β) :=
  match m with
  | [] => []
  | (k0, v0) :: rest =>
    if k0 == k then rest else (k0, v0) :: aerase rest k

/-! ## Go runtime values and `ValidateType` (types.go)

`ValidateType` dispatches on the dynamic Go type of an `any` value.  The
embedding `GoValue` has one constructor per concrete type appearing in the
type switches of `ValidateType`, plus `vTime` for `time.Time`, plus `vNil`
for any value of a type not named in the switches (e.g. untyped `nil`).
Only `string` and `bool` carry their payloads; the other payloads are
irrelevant to every type switch in the source. -/

inductive GoValue : Type
  | vString (s : String)
  | vBool (b : Bool)
  | vFloat64
  | vFloat32
  | vInt
  | vInt8
  | vInt16
  | vInt32
  | vInt64
  | vUint
  | vUint8
  | vUint16
  | vUint32
  | vUint64
  | vMapStringAny
  | vSliceAny
  | vSliceString
  | vSliceInt
  | vSliceFloat64
  | vTime
  | vNil
  deriving DecidableEq

/-- Field types of a schema (types.go `FieldType` constants). -/
inductive FieldType : Type
  | tString
  | tNumber
  | tBoolean
  | tObject
  | tArray
  | tDate
  deriving DecidableEq

/-- Embedding of `ValidateType` (types.go lines 214-246): checks whether a
Go value matches the expected field type, by type switch. -/
def ValidateType (value : GoValue) (fieldType : FieldType) : Bool :=
  match fieldType with
  | .tString =>
    match value with
    | .vString _ => true
    | _ => false
  | .tNumber =>
    match value with
    | .vFloat64 | .vFloat32 | .vInt | .vInt8 | .vInt16 | .vInt32 | .vInt64
    | .vUint | .vUint8 | .vUint16 | .vUint32 | .vUint64 => true
    | _ => false
  | .tBoolean =>
    match value with
    | .vBool _ => true
    | _ => false
  | .tObject =>
    match value with
    | .vMapStringAny => true
    | _ => false
  | .tArray =>
    match value with
    | .vSliceAny | .vSliceString | .vSliceInt | .vSliceFloat64 => true
    | _ => false
  | .tDate =>
    match value with
    | .vString _ | .vTime => true
    | _ => false

/-- A schema field rule (types.go `Field`). -/
structure Field : Type where
  type : FieldType
  required : Bool
  deriving DecidableEq

/-- A collection schema (types.go `Schema`). -/
structure Schema : Type where
  fields : List (String × Field)
  deriving DecidableEq

/-! ## JSON values

WAL entry payloads and documents travel as JSON.  `JValue` is the JSON
value model; objects are association lists.  Numbers are integers (see the
header note). -/

inductive JValue : Type
  | null
  | bool (b : Bool)
  | num (n : Int)
  | str (s : String)
  | arr (elems : List JValue)
  | obj (fields : List (String × JValue))

/-! ## The in-memory data model (types.go) -/

/-- A document (types.go `Document`): string primary key plus field map. -/
structure Document : Type where
  id : String
  data : List (String × JValue)

/-- A hash index (types.go `Index`): stringified field value to document ID. -/
structure Index : Type where
  name : String
  fieldName : String
  data : List (String × String)
  deriving DecidableEq

/-- A collection (types.go `Collection`). -/
structure Collection : Type where
  name : String
  schema : Option Schema
  documents : List (String × Document)
  indexes : List (String × Index)

/-- A database (types.go `Database`). -/
structure Database : Type where
  name : String
  collections : List (String × Collection)

/-- The database manager (types.go `DatabaseManager`). -/
structure DatabaseManager : Type where
  databases : List (String × Database)

/-- Embedding of `NewIndex` (types.go). -/
def NewIndex (name fieldName : String) : Index :=
  { name := name, fieldName := fieldName, data := [] }

/-- Embedding of `NewCollection` (types.go): fresh collection with the
automatic `_id` index. -/
def NewCollection (name : String) (schema : Option Schema) : Collection :=
  { name := name
    schema := schema
    documents := []
    indexes := [("_id", NewIndex "_id" "_id")] }

/-- Embedding of `NewDatabase` (types.go). -/
def NewDatabase (name : String) : Database :=
  { name := name, collections := [] }

/-- Embedding of `NewDatabaseManager` (types.go). -/
def NewDatabaseManager : DatabaseManager :=
  { databases := [] }

/-- Embedding of `DatabaseManager.GetDatabase` (types.go): nil when absent. -/
def DatabaseManager.GetDatabase (dm : DatabaseManager) (name : String) :
    Option Database :=
  alookup dm.databases name

/-- Embedding of `DatabaseManager.CreateDatabase` (types.go lines 155-167):
returns the existing database if one with that name exists, otherwise
inserts a fresh one.  The Go method returns the `*Database`; the embedding
additionally returns the updated manager. -/
def DatabaseManager.CreateDatabase (dm : DatabaseManager) (name : String) :
    Database × DatabaseManager :=
  match alookup dm.databases name with
  | some db => (db, dm)
  | none =>
    let db := NewDatabase name
    (db, { dm with databases := ainsert dm.databases name db })

/-- Embedding of `DatabaseManager.DeleteDatabase` (types.go): removes the
database if present; the Go method also reports whether it was present. -/
def DatabaseManager.DeleteDatabase (dm : DatabaseManager) (name : String) :
    Bool × DatabaseManager :=
  match alookup dm.databases name with
  | some _ => (true, { dm with databases := aerase dm.databases name })
  | none => (false, dm)

/-! ## Write-ahead log entries (wal.go)

`WALEntry` mirrors the Go struct.  `data` embeds the `Data []byte` field at
the JSON level: `none` is a nil byte slice, `some j` is the JSON value the
bytes encode.  `encSize` stands for the length of the serialized entry,
used only for the file-size accounting of `writeEntryLocked`. -/

structure WALEntry : Type where
  offset : Nat
  database : String
  collection : String
  operation : String
  documentId : String
  data : Option JValue
  encSize : Nat

/-- WAL operation name constants (wal.go). -/
def WALOpInsert : String := "insert"

def WALOpUpdate : String := "update"

def WALOpDelete : String := "delete"

def WALOpCreateDatabase : String := "create_database"

def WALOpDeleteDatabase : String := "delete_database"

def WALOpCreateCollection : String := "create_collection"

def WALOpDeleteCollection : String := "delete_collection"

def WALOpCreateIndex : String := "create_index"

/-- WAL size and retention constants (wal.go). -/
def WALMaxSize : Nat := 64 * 1024 * 1024

def WALRetentionCount : Nat := 2

/-- The WAL checkpoint record (wal.go `WALCheckpoint`); the timestamp is
irrelevant to every verified property and omitted. -/
structure WALCheckpoint : Type where
  offset : Nat
  deriving DecidableEq

/-! ## Checkpoint loading and offset assignment (wal.go) -/

/-- Embedding of `loadCheckpoint` (wal.go lines 427-448).  The argument is
the content of `wal.checkpoint`, or `none` when the file does not exist.
Returns the loaded checkpoint and the resulting `currentOffset`.  When the
file is missing the code sets the checkpoint to offset 0 and returns
without touching `currentOffset`, which keeps its zero value; only when
the file exists is `currentOffset` set to `cp.Offset + 1`. -/
def loadCheckpoint (file : Option WALCheckpoint) : WALCheckpoint × Nat :=
  match file with
  | none => ({ offset := 0 }, 0)
  | some cp => (cp, cp.offset + 1)

/-- Offset assignment performed under the batch lock by both `AppendEntry`
and `AppendEntrySync` (wal.go lines 110-114 and 136-139): the entry gets
the current offset and the counter is incremented. -/
def assignOffset (cur : Nat) (e : WALEntry) : WALEntry × Nat :=
  ({ e with offset := cur }, cur + 1)

/-- Offset assignment over a whole sequence of appends in one WAL session. -/
def assignOffsets (cur : Nat) : List WALEntry → List WALEntry × Nat
  | [] => ([], cur)
  | e :: rest =>
    let p := assignOffset cur e
    let q := assignOffsets p.2 rest
    (p.1 :: q.1, q.2)

/-! ## Replay entry selection (wal.go) -/

/-- Embedding of the offset filter of `readWALFile` (wal.go line 311): an
entry read from a WAL file is kept when `entry.Offset >= startOffset`. -/
def readWALFileEntries (fileEntries : List WALEntry) (startOffset : Nat) :
    List WALEntry :=
  fileEntries.filter (fun e => startOffset ≤ e.offset)

/-- Embedding of `ReadFrom` (wal.go lines 243-264): concatenates the kept
entries of every WAL file, files in ascending name order. -/
def WALManager.ReadFrom (files : List (List WALEntry)) (startOffset : Nat) :
    List WALEntry :=
  (files.map (fun f => readWALFileEntries f startOffset)).flatten

/-- The set of entries `Replay` (wal.go lines 484-517) applies: it calls
`ReadFrom checkpoint.Offset` and applies every returned entry in order. -/
def replaySelectedEntries (files : List (List WALEntry))
    (checkpoint : WALCheckpoint) : List WALEntry :=
  WALManager.ReadFrom files checkpoint.offset

/-! ## Background storage sync (storage.go `syncDirtyToStorage`) -/

/-- A dirty-set entry (storage.go `DirtyEntry`); empty `collection` means
the whole database.  The timestamp is irrelevant and omitted. -/
structure DirtyEntry : Type where
  database : String
  collection : String
  deriving DecidableEq

/-- Outcome of one background-flush cycle: the dirty entries re-queued for
the next cycle and whether `sm.Checkpoint()` was invoked. -/
structure SyncOutcome : Type where
  newDirty : List (String × DirtyEntry)
  checkpointCalled : Bool
  deriving DecidableEq

/-- Whether saving one dirty entry fails in `syncDirtyToStorage`
(storage.go lines 112-137): a database-level entry fails when the database
is present but `SaveDatabase` errors; a collection-level entry fails when
database and collection are present but `SaveCollection` errors.  When the
database or collection has meanwhile disappeared, `err` stays nil and the
entry is treated as successfully synced. -/
def dirtyEntryFailed (dbExists : String → Bool)
    (collExists : String → String → Bool) (saveOk : String → Bool)
    (key : String) (e : DirtyEntry) : Bool :=
  if e.collection = "" then
    dbExists e.database && !(saveOk key)
  else
    dbExists e.database && collExists e.database e.collection && !(saveOk key)

/-- Embedding of `syncDirtyToStorage` (storage.go lines 91-143).  The
snapshot-and-clear of the dirty map, the save loop with re-queue on
failure, and the final unconditional `sm.Checkpoint()` call.  `dbManagerSet`
models `sm.dbManager == nil` (return before saving and before the
checkpoint).  When the dirty set is empty the function returns before
doing anything. -/
def syncDirtyToStorage (dirty : List (String × DirtyEntry))
    (dbManagerSet : Bool) (dbExists : String → Bool)
    (collExists : String → String → Bool) (saveOk : String → Bool) :
    SyncOutcome :=
  if dirty.isEmpty then
    { newDirty := dirty, checkpointCalled := false }
  else if !dbManagerSet then
    { newDirty := [], checkpointCalled := false }
  else
    { newDirty :=
        dirty.filter (fun p => dirtyEntryFailed dbExists collExists saveOk p.1 p.2)
      checkpointCalled := true }

/-! ## WAL file state machine (wal.go)

The durability-relevant state of the WAL manager.  A WAL file carries two
layers: `osEntries`, the entries pushed to the operating system by
`writer.Flush()`, and `durableEntries`, the entries made durable by an
`fsync` on that file while its descriptor was open.  Closing a file does
not fsync it, so a closed file keeps whatever `durableEntries` it had.
`writerBuf` is the content of the `bufio.Writer` not yet flushed. -/

structure WalFileState : Type where
  name : String
  osEntries : List WALEntry
  durableEntries : List WALEntry

/-- The mutable state of `WALManager` relevant to append, flush, rotation,
retention and checkpoint. -/
structure WalState : Type where
  currentOffset : Nat
  currentSize : Nat
  batch : List WALEntry
  writerBuf : List WALEntry
  curFile : WalFileState
  closedFiles : List WalFileState

/-- Environment of one WAL call: injected results of the fallible
`writer.Flush()` and `file.Sync()` system calls, and the wall-clock second
used to name a rotated file. -/
structure WalEnv : Type where
  flushOk : Bool
  syncOk : Bool
  timestamp : Nat

/-- Errors surfaced by the WAL manager in the embedded fragment. -/
inductive WalOpError : Type
  | flushFailed
  | syncFailed
  deriving DecidableEq

/-- Left-pad a decimal rendering to 6 digits, Go `fmt.Sprintf("%06d", n)`. -/
def pad6 (n : Nat) : String :=
  let s := toString n
  if s.length < 6 then String.mk (List.replicate (6 - s.length) '0') ++ s else s

/-- WAL file name `wal-<unix-seconds>-<offset, 6 digits>.log`
(`openCurrentWAL`, wal.go line 365). -/
def mkWalName (timestamp currentOffset : Nat) : String :=
  "wal-" ++ toString timestamp ++ "-" ++ pad6 currentOffset ++ ".log"

/-- Names of the WAL files currently present in the root directory. -/
def walFileNames (st : WalState) : List String :=
  st.closedFiles.map (fun f => f.name) ++ [st.curFile.name]

/-- Entries present in any WAL file (flushed to the OS). -/
def walFileEntries (st : WalState) : List WALEntry :=
  (st.closedFiles.map (fun f => f.osEntries)).flatten ++ st.curFile.osEntries

/-- Embedding of `writeEntryLocked` (wal.go lines 204-228): serialize the
entry into the buffered writer and grow `currentSize` by `4+4+N` bytes. -/
def writeEntryLocked (st : WalState) (e : WALEntry) : WalState :=
  { st with
    writerBuf := st.writerBuf ++ [e]
    currentSize := st.currentSize + (8 + e.encSize) }

/-- A successful `writer.Flush()`: the buffered entries reach the OS file. -/
def writerFlush (st : WalState) : WalState :=
  { st with
    writerBuf := []
    curFile := { st.curFile with
      osEntries := st.curFile.osEntries ++ st.writerBuf } }

/-- A successful `file.Sync()` on the currently open WAL file: everything
the OS holds for that file becomes durable. -/
def fileSync (st : WalState) : WalState :=
  { st with curFile := { st.curFile with
      durableEntries := st.curFile.osEntries } }

/-- Byte-wise lexicographic comparison of character lists, the order
`sort.Strings` uses (Go strings compare byte-wise; the names involved are
ASCII, where code-point order and byte order agree). -/
def charListLe : List Char → List Char → Bool
  | [], _ => true
  | _ :: _, [] => false
  | a :: as, b :: bs =>
    if a.toNat < b.toNat then true
    else if b.toNat < a.toNat then false
    else charListLe as bs

/-- Lexicographic string comparison (Go `sort.Strings` order). -/
def strLe (a b : String) : Bool :=
  charListLe a.data b.data

instance instStrLeTotal : IsTotal String (fun a b => strLe a b = true) := by
  constructor
  intro a b
  unfold strLe
  generalize a.data = as
  generalize b.data = bs
  induction as generalizing bs with
  | nil => left; rfl
  | cons c cs ih =>
    cases bs with
    | nil => right; rfl
    | cons d ds =>
      by_cases h1 : c.toNat < d.toNat
      · left; simp [charListLe, h1]
      · by_cases h2 : d.toNat < c.toNat
        · right; simp [charListLe, h1, h2]
        · cases ih ds with
          | inl h => left; simp [charListLe, h1, h2, h]
          | inr h => right; simp [charListLe, h1, h2, h]

instance instStrLeTrans : IsTrans String (fun a b => strLe a b = true) := by
  constructor
  intro a b c
  unfold strLe
  generalize a.data = as
  generalize b.data = bs
  generalize c.data = cs
  induction as generalizing bs cs with
  | nil => intro _ _; rfl
  | cons x xs ih =>
    cases bs with
    | nil => intro h _; simp [charListLe] at h
    | cons y ys =>
      cases cs with
      | nil => intro _ h; simp [charListLe] at h
      | cons z zs =>
        intro h1 h2
        simp only [charListLe] at h1 h2 ⊢
        by_cases hxy : x.toNat < y.toNat
        · by_cases hyz : y.toNat < z.toNat
          · simp [Nat.lt_trans hxy hyz]
          · by_cases hzy : z.toNat < y.toNat
            · simp [hyz, hzy] at h2
            · have hyz2 : y.toNat = z.toNat := by omega
              simp [hxy, hyz2 ▸ hxy]
        · by_cases hyx : y.toNat < x.toNat
          · simp [hxy, hyx] at h1
          · have hxy2 : x.toNat = y.toNat := by omega
            by_cases hyz : y.toNat < z.toNat
            · simp [hxy2 ▸ hyz]
            · by_cases hzy : z.toNat < y.toNat
              · simp [hyz, hzy] at h2
              · have hyz2 : y.toNat = z.toNat := by omega
                simp only [hxy, hyx, if_false] at h1
                simp only [hyz, hzy, if_false] at h2
                have hxz : ¬ x.toNat < z.toNat := by omega
                have hzx : ¬ z.toNat < x.toNat := by omega
                simp [hxz, hzx, ih ys zs h1 h2]

/-- Ascending sort of file names, Go `sort.Strings`. -/
def sortNames (l : List String) : List String :=
  List.insertionSort (fun a b => strLe a b = true) l

/-- Embedding of `getWALFilesLocked` (wal.go lines 387-402): the WAL file
names of the root directory in ascending string order.  The model tracks
only WAL files, so the `wal-` prefix filter is implicit. -/
def getWALFilesSorted (st : WalState) : List String :=
  sortNames (walFileNames st)

/-- The removal loop of `cleanupOldWALsLocked`: delete every file whose
name is in `toRemove` (directory names are unique, so this is a filter). -/
def dropRemoved (toRemove : List String) (files : List WalFileState) :
    List WalFileState :=
  files.filter (fun f => !(toRemove.contains f.name))

/-- Embedding of `cleanupOldWALsLocked` (wal.go lines 404-425): when more
than `WALRetentionCount` WAL files exist, remove the oldest ones by name. -/
def cleanupOldWALs (st : WalState) : WalState :=
  if (getWALFilesSorted st).length ≤ WALRetentionCount then st
  else
    { st with closedFiles := dropRemoved ((getWALFilesSorted st).take ((getWALFilesSorted st).length - WALRetentionCount)) st.closedFiles }

/-- Embedding of `openCurrentWAL` (wal.go lines 362-384) for a fresh file
name: a new empty WAL file named from the timestamp and current offset
becomes the current file, and `currentSize` restarts at its size 0.
(The Go code opens with `O_APPEND` and would continue an existing file of
the same name; the theorems below assume the rotated-to name is fresh.) -/
def openCurrentWAL (env : WalEnv) (st : WalState) : WalState :=
  { st with
    curFile :=
      { name := mkWalName env.timestamp st.currentOffset
        osEntries := []
        durableEntries := [] }
    currentSize := 0 }

/-- Embedding of `rotateLocked` (wal.go lines 343-360): flush the buffered
writer (its error is ignored by the code), close the current file, open a
new one, and apply retention.  A failing ignored flush leaves the buffered
entries in the writer buffer. -/
def rotateLocked (env : WalEnv) (st : WalState) : WalState :=
  let st1 := if env.flushOk then writerFlush st else st
  let st2 := { st1 with closedFiles := st1.closedFiles ++ [st1.curFile] }
  cleanupOldWALs (openCurrentWAL env st2)

/-- Embedding of `flushBatchLocked` (wal.go lines 170-201): write every
batched entry to the buffered writer, clear the batch, flush the writer
(propagating its error), and rotate when the file size reached the cap. -/
def flushBatchLocked (env : WalEnv) (st : WalState) :
    Except WalOpError WalState :=
  if st.batch.isEmpty then .ok st
  else
    let st1 := st.batch.foldl writeEntryLocked st
    let st2 := { st1 with batch := [] }
    if env.flushOk then
      let st3 := writerFlush st2
      if WALMaxSize ≤ st3.currentSize then .ok (rotateLocked env st3)
      else .ok st3
    else .error .flushFailed

/-- Embedding of `AppendEntrySync` (wal.go lines 129-161): assign the
offset, add the entry to the batch, flush the batch immediately, then
fsync the current file.  Returns the entry as stamped with its offset,
matching the in-place mutation of the Go code. -/
def AppendEntrySync (env : WalEnv) (e : WALEntry) (st : WalState) :
    Except WalOpError (WALEntry × WalState) :=
  let p := assignOffset st.currentOffset e
  let st1 := { st with currentOffset := p.2, batch := st.batch ++ [p.1] }
  match flushBatchLocked env st1 with
  | .error er => .error er
  | .ok st2 =>
    if env.syncOk then .ok (p.1, fileSync st2) else .error .syncFailed

/-- Running a sequence of synchronous appends. -/
def runAppendsSync (env : WalEnv) (es : List WALEntry) (st : WalState) :
    Except WalOpError WalState :=
  match es with
  | [] => .ok st
  | e :: rest =>
    match AppendEntrySync env e st with
    | .error er => .error er
    | .ok q => runAppendsSync env rest q.2

/-- Embedding of `StorageManager.Checkpoint` (storage.go lines 618-625):
the offset recorded into `wal.checkpoint` is the WAL's `currentOffset`. -/
def StorageManager.CheckpointOffset (st : WalState) : Nat :=
  st.currentOffset

/-- The WAL state right after a fresh open of an empty root directory:
no checkpoint file, offset counter zero, an empty current file. -/
def freshWalState (name : String) : WalState :=
  { currentOffset := (loadCheckpoint none).2
    currentSize := 0
    batch := []
    writerBuf := []
    curFile := { name := name, osEntries := [], durableEntries := [] }
    closedFiles := [] }

/-- Total on-file footprint of a list of entries (`4+4+N` bytes each). -/
def entriesSize (es : List WALEntry) : Nat :=
  (es.map (fun e => 8 + e.encSize)).sum

/-! ## Binary codec: CRC-32 (IEEE) and record framing (wal.go)

Bytes are `Nat` values below 256.  `crc32` is the bit-level definition of
`hash/crc32.ChecksumIEEE`: state initialised to `0xFFFFFFFF`, each byte
xor-ed into the state followed by eight reflected-polynomial steps, final
complement. -/

/-- The reflected CRC-32 (IEEE) polynomial. -/
def crcPoly : Nat := 0xEDB88320

/-- One bit step of the reflected CRC-32: shift right, conditionally
xor the polynomial. -/
def crcStep (s : Nat) : Nat :=
  if s % 2 = 1 then (s / 2) ^^^ crcPoly else s / 2

/-- Absorb one byte into the CRC state: xor it in, then eight bit steps. -/
def crcUpdate (s b : Nat) : Nat :=
  crcStep^[8] (s ^^^ b)

/-- Embedding of `crc32.ChecksumIEEE` over a byte list. -/
def crc32 (data : List Nat) : Nat :=
  (data.foldl crcUpdate 0xFFFFFFFF) ^^^ 0xFFFFFFFF

/-- The four little-endian bytes of `n` (Go `binary.Write` of a `uint32`;
values at or above `2 ^ 32` are truncated exactly as the cast does). -/
def toLE4 (n : Nat) : List Nat :=
  [n % 256, n / 256 % 256, n / 65536 % 256, n / 16777216 % 256]

/-- The `uint32` denoted by four little-endian bytes (Go `binary.Read`). -/
def fromLE4 (b0 b1 b2 b3 : Nat) : Nat :=
  b0 + 256 * b1 + 65536 * b2 + 16777216 * b3

/-- Embedding of the frame written by `writeEntryLocked` (wal.go lines
214-224) for a serialized payload: `[length:u32 LE][crc32:u32 LE][bytes]`. -/
def encodeFrame (p : List Nat) : List Nat :=
  toLE4 p.length ++ toLE4 (crc32 p) ++ p

/-- Read-side failures of the WAL file reader.  `checksumMismatch` is the
`WAL entry checksum mismatch` corruption error of `readWALFile` (wal.go
line 301); `truncated` stands for the `io.EOF` / `io.ErrUnexpectedEOF`
read errors the same loop returns on a partial header or short payload. -/
inductive WalReadError : Type
  | truncated
  | checksumMismatch
  deriving DecidableEq

/-- Embedding of the framing loop of `readWALFile` (wal.go lines 277-314):
read a 4-byte length, a 4-byte checksum, `length` payload bytes, verify
the CRC, and repeat until clean end of file.  A clean EOF on the length
read ends the loop; any other short read is an error, as is a CRC
mismatch.  (The JSON decoding and offset filtering that follow in the Go
loop are embedded separately.) -/
def readWALFrames (bytes : List Nat) : Except WalReadError (List (List Nat)) :=
  match bytes with
  | [] => .ok []
  | b0 :: b1 :: b2 :: b3 :: c0 :: c1 :: c2 :: c3 :: rest =>
    let len := fromLE4 b0 b1 b2 b3
    let crc := fromLE4 c0 c1 c2 c3
    if rest.length < len then .error .truncated
    else
      let data := rest.take len
      if crc32 data = crc then
        match readWALFrames (rest.drop len) with
        | .ok frames => .ok (data :: frames)
        | .error er => .error er
      else .error .checksumMismatch
  | _ => .error .truncated
termination_by bytes.length
decreasing_by
  simp only [List.length_drop, List.length_cons]
  omega

/-- Flip bit `j` of the byte at position `i` of a byte list.  For `j < 8`
and bytes below 256 the result is again a byte list. -/
def flipBit (l : List Nat) (i j : Nat) : List Nat :=
  l.set i ((l.getD i 0) ^^^ 2 ^ j)

/-! ## In-memory mutations, WAL logging and replay (storage.go, wal.go)

`Collection.Insert`, `Collection.Update`, `Collection.Delete`,
`Collection.CreateIndex`, `Database.CreateCollection` and
`Database.GetCollection` live in a source file that is not available;
they are modelled from the specification (§3, §4.4).  Everything else in
this section embeds storage.go and wal.go. -/

/-- Error kinds of the model and of replay. -/
inductive DbError : Type
  | conflict
  | notFound
  | schemaViolation
  | unmarshalFailed
  | dbNotFoundDuringReplay
  | unknownWalOperation
  deriving DecidableEq

/-- Type check of a JSON-decoded value against a schema field type: the
composition of `ValidateType` (types.go) with the dynamic Go types
`encoding/json` produces (`string`, `float64`, `bool`, `map[string]any`,
`[]any`, untyped nil).  A JSON string satisfies `date`; no JSON value
decodes to `time.Time`. -/
def validateTypeJSON (v : JValue) (t : FieldType) : Bool :=
  match t with
  | .tString =>
    match v with
    | .str _ => true
    | _ => false
  | .tNumber =>
    match v with
    | .num _ => true
    | _ => false
  | .tBoolean =>
    match v with
    | .bool _ => true
    | _ => false
  | .tObject =>
    match v with
    | .obj _ => true
    | _ => false
  | .tArray =>
    match v with
    | .arr _ => true
    | _ => false
  | .tDate =>
    match v with
    | .str _ => true
    | _ => false

/-- Modelled from the spec: schema validation (§4.4 insert/update) of the
missing collection implementation.  A missing required field or a type
mismatch on a declared field is a violation; undeclared fields pass. -/
def validateDocumentData (schema : Option Schema)
    (data : List (String × JValue)) : Bool :=
  match schema with
  | none => true
  | some s =>
    s.fields.all (fun kv =>
      match alookup data kv.1 with
      | none => !kv.2.required
      | some v => validateTypeJSON v kv.2.type)

/-- Modelled from the spec: the stringification of an indexed field value
used as hash-index key (§3 Index, "field-value (stringified)"). -/
def stringifyJSON (v : JValue) : String :=
  match v with
  | .null => "null"
  | .bool b => if b then "true" else "false"
  | .num n => toString n
  | .str s => s
  | .arr _ => "array"
  | .obj _ => "object"

/-- Modelled from the spec: adding a document to a hash index (missing
index implementation; §3: the index maps the stringified field value to
the document ID, keeping the last inserted ID).  The `_id` index maps the
ID to itself; a document without the indexed field is not indexed. -/
def Index.AddToIndex (idx : Index) (doc : Document) : Index :=
  if idx.fieldName = "_id" then
    { idx with data := ainsert idx.data doc.id doc.id }
  else
    match alookup doc.data idx.fieldName with
    | some v => { idx with data := ainsert idx.data (stringifyJSON v) doc.id }
    | none => idx

/-- Modelled from the spec: removing a document from a hash index (§4.4
delete: remove from every index containing it). -/
def Index.RemoveFromIndex (idx : Index) (doc : Document) : Index :=
  if idx.fieldName = "_id" then
    { idx with data := aerase idx.data doc.id }
  else
    match alookup doc.data idx.fieldName with
    | some v => { idx with data := aerase idx.data (stringifyJSON v) }
    | none => idx

/-- Modelled from the spec: `Collection.Insert` (§4.4): `Conflict` when the
ID exists, schema validation, then insertion into the documents and every
index.  UUID assignment for an empty ID is external nondeterminism; the
sequences considered here carry explicit IDs, and replayed documents
always do. -/
def Collection.Insert (c : Collection) (doc : Document) :
    Except DbError Collection :=
  match alookup c.documents doc.id with
  | some _ => .error .conflict
  | none =>
    if validateDocumentData c.schema doc.data then
      .ok { c with
        documents := ainsert c.documents doc.id doc
        indexes := c.indexes.map (fun kv => (kv.1, kv.2.AddToIndex doc)) }
    else .error .schemaViolation

/-- Modelled from the spec: `Collection.Update` (§4.4): load or `NotFound`;
field-level assignment of the patch (a null value is assigned, not
deleted; the spec special-cases no key), re-validation, index refresh
(remove the old mapping, add the new). -/
def Collection.Update (c : Collection) (id : String)
    (patch : List (String × JValue)) : Except DbError Collection :=
  match alookup c.documents id with
  | none => .error .notFound
  | some doc =>
    let newData := patch.foldl (fun d kv => ainsert d kv.1 kv.2) doc.data
    if validateDocumentData c.schema newData then
      let newDoc : Document := { id := doc.id, data := newData }
      .ok { c with
        documents := ainsert c.documents id newDoc
        indexes := c.indexes.map
          (fun kv => (kv.1, (kv.2.RemoveFromIndex doc).AddToIndex newDoc)) }
    else .error .schemaViolation

/-- Modelled from the spec: `Collection.Delete` (§4.4): remove from the
documents and from every index; `NotFound` when absent. -/
def Collection.Delete (c : Collection) (id : String) :
    Except DbError Collection :=
  match alookup c.documents id with
  | none => .error .notFound
  | some doc =>
    .ok { c with
      documents := aerase c.documents id
      indexes := c.indexes.map (fun kv => (kv.1, kv.2.RemoveFromIndex doc)) }

/-- Modelled from the spec: `Collection.CreateIndex` (§4.4): `Conflict`
when the name exists, otherwise build the index by scanning documents. -/
def Collection.CreateIndex (c : Collection) (name fieldName : String) :
    Except DbError Collection :=
  match alookup c.indexes name with
  | some _ => .error .conflict
  | none =>
    let idx := c.documents.foldl (fun i kv => i.AddToIndex kv.2)
      (NewIndex name fieldName)
    .ok { c with indexes := ainsert c.indexes name idx }

/-- Modelled from the spec: `Database.CreateCollection` (§3, §6.2):
collection names are unique within a database; `Conflict` when the name
exists, otherwise a fresh collection via `NewCollection`. -/
def Database.CreateCollection (db : Database) (name : String)
    (schema : Option Schema) : Except DbError Database :=
  match alookup db.collections name with
  | some _ => .error .conflict
  | none =>
    .ok { db with
      collections := ainsert db.collections name (NewCollection name schema) }

/-- Modelled from the spec: `Database.GetCollection`: lookup or `NotFound`. -/
def Database.GetCollection (db : Database) (name : String) :
    Except DbError Collection :=
  match alookup db.collections name with
  | some c => .ok c
  | none => .error .notFound

/-- Write an updated database back into the manager (the Go code mutates
the shared `*Database` in place). -/
def DatabaseManager.putDatabase (dm : DatabaseManager) (db : Database) :
    DatabaseManager :=
  { dm with databases := ainsert dm.databases db.name db }

/-- Write an updated collection back into its database. -/
def Database.putCollection (db : Database) (c : Collection) : Database :=
  { db with collections := ainsert db.collections c.name c }

/-! ### Document and schema serialization (types.go, storage.go) -/

/-- Embedding of `Document.MarshalJSON` (types.go lines 84-91): a combined
JSON object holding `_id` and then every data field (a data field named
`_id` would overwrite the promoted key, as in the Go map). -/
def marshalDocument (d : Document) : JValue :=
  .obj (d.data.foldl (fun m kv => ainsert m kv.1 kv.2)
    (ainsert [] "_id" (.str d.id)))

/-- Embedding of `Document.UnmarshalJSON` (types.go lines 94-107): decode
a JSON object, promote a string-typed `_id` out of the map; any other
JSON value fails like `json.Unmarshal` into a map does. -/
def unmarshalDocument (j : JValue) : Except DbError Document :=
  match j with
  | .obj raw =>
    match alookup raw "_id" with
    | some (.str id) => .ok { id := id, data := aerase raw "_id" }
    | _ => .ok { id := "", data := raw }
  | _ => .error .unmarshalFailed

/-- JSON name of a schema field type (types.go `FieldType` string values). -/
def fieldTypeName (t : FieldType) : String :=
  match t with
  | .tString => "string"
  | .tNumber => "number"
  | .tBoolean => "boolean"
  | .tObject => "object"
  | .tArray => "array"
  | .tDate => "date"

/-- Parse a schema field type name back (Go just casts the string; an
unknown name stays as an unknown `FieldType` only in Go — the sequences
considered use known names, and parsing is total on them). -/
def parseFieldTypeName (s : String) : FieldType :=
  if s = "string" then .tString
  else if s = "number" then .tNumber
  else if s = "boolean" then .tBoolean
  else if s = "object" then .tObject
  else if s = "array" then .tArray
  else .tDate

/-- `json.Marshal` of a `Field` (types.go struct tags `type`, `required`). -/
def marshalField (f : Field) : JValue :=
  .obj [("type", .str (fieldTypeName f.type)), ("required", .bool f.required)]

/-- `json.Marshal` of a `*Schema` (types.go struct tag `fields`). -/
def marshalSchema (s : Schema) : JValue :=
  .obj [("fields", .obj (s.fields.map (fun kv => (kv.1, marshalField kv.2))))]

/-- `json.Unmarshal` of a `Field` value. -/
def parseField (j : JValue) : Except DbError Field :=
  match j with
  | .obj raw =>
    let t := match alookup raw "type" with
      | some (.str s) => some (parseFieldTypeName s)
      | none => some .tString
      | _ => none
    match t with
    | none => .error .unmarshalFailed
    | some ty =>
      match alookup raw "required" with
      | some (.bool b) => .ok { type := ty, required := b }
      | none => .ok { type := ty, required := false }
      | _ => .error .unmarshalFailed
  | _ => .error .unmarshalFailed

/-- `json.Unmarshal` of a `*Schema` value: `null` decodes to nil, an
object decodes field rules from its `fields` key. -/
def parseSchemaJSON (j : JValue) : Except DbError (Option Schema) :=
  match j with
  | .null => .ok none
  | .obj raw =>
    match alookup raw "fields" with
    | none => .ok (some { fields := [] })
    | some (.obj fs) =>
      match fs.mapM (fun kv => (parseField kv.2).map (fun f => (kv.1, f))) with
      | .ok fields => .ok (some { fields := fields })
      | .error er => .error er
    | some .null => .ok (some { fields := [] })
    | some _ => .error .unmarshalFailed
  | _ => .error .unmarshalFailed

/-- Embedding of the `collData` decoding in `replayEntry`
(wal.go lines 536-543): `json.Unmarshal(entry.Data, &struct{Name;Schema})`.
A nil `Data` fails (`unexpected end of JSON input`); an object yields the
`name` key (zero value `""` when absent) and the `schema` key (nil when
absent).  Keys of other JSON types fail to decode into the struct. -/
def parseCollData (d : Option JValue) :
    Except DbError (String × Option Schema) :=
  match d with
  | none => .error .unmarshalFailed
  | some (.obj raw) =>
    let name := match alookup raw "name" with
      | some (.str s) => some s
      | none => some ""
      | _ => none
    match name with
    | none => .error .unmarshalFailed
    | some n =>
      match alookup raw "schema" with
      | none => .ok (n, none)
      | some j =>
        match parseSchemaJSON j with
        | .ok s => .ok (n, s)
        | .error er => .error er
  | some _ => .error .unmarshalFailed

/-- Embedding of the `indexData` decoding in `replayEntry`
(wal.go lines 622-627): `{index_name, field_name}`. -/
def parseIndexData (d : Option JValue) : Except DbError (String × String) :=
  match d with
  | none => .error .unmarshalFailed
  | some (.obj raw) =>
    let iname := match alookup raw "index_name" with
      | some (.str s) => some s
      | none => some ""
      | _ => none
    let fname := match alookup raw "field_name" with
      | some (.str s) => some s
      | none => some ""
      | _ => none
    match iname, fname with
    | some i, some f => .ok (i, f)
    | _, _ => .error .unmarshalFailed
  | some _ => .error .unmarshalFailed

/-- `json.Unmarshal` of `entry.Data` into `map[string]any`
(`replayEntry`, update case, wal.go lines 583-586). -/
def parseUpdatesMap (d : Option JValue) :
    Except DbError (List (String × JValue)) :=
  match d with
  | none => .error .unmarshalFailed
  | some (.obj raw) => .ok raw
  | some _ => .error .unmarshalFailed

/-! ### Replay (wal.go `replayEntry`) -/

/-- Embedding of `replayEntry` (wal.go lines 519-638): dispatch on the
operation string and apply the entry to the in-memory model.  The
`storage.SaveDatabase` / `storage.SaveCollection` calls touch only the
disk and are omitted (assumed to succeed). -/
def replayEntry (dm : DatabaseManager) (e : WALEntry) :
    Except DbError DatabaseManager :=
  if e.operation = WALOpCreateDatabase then
    .ok (dm.CreateDatabase e.database).2
  else if e.operation = WALOpDeleteDatabase then
    .ok (dm.DeleteDatabase e.database).2
  else if e.operation = WALOpCreateCollection then
    match dm.GetDatabase e.database with
    | none => .error .dbNotFoundDuringReplay
    | some db =>
      match parseCollData e.data with
      | .error er => .error er
      | .ok nameSchema =>
        match db.CreateCollection nameSchema.1 nameSchema.2 with
        | .error er => .error er
        | .ok db2 => .ok (dm.putDatabase db2)
  else if e.operation = WALOpInsert then
    match dm.GetDatabase e.database with
    | none => .error .dbNotFoundDuringReplay
    | some db =>
      match db.GetCollection e.collection with
      | .error er => .error er
      | .ok coll =>
        match e.data with
        | none => .error .unmarshalFailed
        | some j =>
          match unmarshalDocument j with
          | .error er => .error er
          | .ok doc =>
            match coll.Insert doc with
            | .error er => .error er
            | .ok coll2 => .ok (dm.putDatabase (db.putCollection coll2))
  else if e.operation = WALOpUpdate then
    match dm.GetDatabase e.database with
    | none => .error .dbNotFoundDuringReplay
    | some db =>
      match db.GetCollection e.collection with
      | .error er => .error er
      | .ok coll =>
        match parseUpdatesMap e.data with
        | .error er => .error er
        | .ok updates =>
          match coll.Update e.documentId updates with
          | .error er => .error er
          | .ok coll2 => .ok (dm.putDatabase (db.putCollection coll2))
  else if e.operation = WALOpDelete then
    match dm.GetDatabase e.database with
    | none => .error .dbNotFoundDuringReplay
    | some db =>
      match db.GetCollection e.collection with
      | .error er => .error er
      | .ok coll =>
        match coll.Delete e.documentId with
        | .error er => .error er
        | .ok coll2 => .ok (dm.putDatabase (db.putCollection coll2))
  else if e.operation = WALOpCreateIndex then
    match dm.GetDatabase e.database with
    | none => .error .dbNotFoundDuringReplay
    | some db =>
      match db.GetCollection e.collection with
      | .error er => .error er
      | .ok coll =>
        match parseIndexData e.data with
        | .error er => .error er
        | .ok names =>
          match coll.CreateIndex names.1 names.2 with
          | .error er => .error er
          | .ok coll2 => .ok (dm.putDatabase (db.putCollection coll2))
  else .error .unknownWalOperation

/-- Replaying a list of entries in order, aborting on the first failure
(`Replay`, wal.go lines 500-505). -/
def replayAll (dm : DatabaseManager) (entries : List WALEntry) :
    Except DbError DatabaseManager :=
  match entries with
  | [] => .ok dm
  | e :: rest =>
    match replayEntry dm e with
    | .error er => .error er
    | .ok dm2 => replayAll dm2 rest

/-! ### Mutation sequences through the engine (internal/mcp handlers) -/

/-- One engine-level mutation with its explicit arguments. -/
inductive Mutation : Type
  | createDatabase (name : String)
  | createCollection (dbName collName : String) (schema : Option Schema)
  | insertDoc (dbName collName : String) (doc : Document)
  | updateDoc (dbName collName id : String) (patch : List (String × JValue))
  | deleteDoc (dbName collName id : String)
  | createIdx (dbName collName idxName fieldName : String)

/-- Apply one mutation to the in-memory model, as the tool handlers do
before logging (mutate first, log only on success). -/
def applyMutation (dm : DatabaseManager) (m : Mutation) :
    Except DbError DatabaseManager :=
  match m with
  | .createDatabase n => .ok (dm.CreateDatabase n).2
  | .createCollection dbn cn schema =>
    match dm.GetDatabase dbn with
    | none => .error .notFound
    | some db =>
      match db.CreateCollection cn schema with
      | .error er => .error er
      | .ok db2 => .ok (dm.putDatabase db2)
  | .insertDoc dbn cn doc =>
    match dm.GetDatabase dbn with
    | none => .error .notFound
    | some db =>
      match db.GetCollection cn with
      | .error er => .error er
      | .ok coll =>
        match coll.Insert doc with
        | .error er => .error er
        | .ok coll2 => .ok (dm.putDatabase (db.putCollection coll2))
  | .updateDoc dbn cn id patch =>
    match dm.GetDatabase dbn with
    | none => .error .notFound
    | some db =>
      match db.GetCollection cn with
      | .error er => .error er
      | .ok coll =>
        match coll.Update id patch with
        | .error er => .error er
        | .ok coll2 => .ok (dm.putDatabase (db.putCollection coll2))
  | .deleteDoc dbn cn id =>
    match dm.GetDatabase dbn with
    | none => .error .notFound
    | some db =>
      match db.GetCollection cn with
      | .error er => .error er
      | .ok coll =>
        match coll.Delete id with
        | .error er => .error er
        | .ok coll2 => .ok (dm.putDatabase (db.putCollection coll2))
  | .createIdx dbn cn iname fname =>
    match dm.GetDatabase dbn with
    | none => .error .notFound
    | some db =>
      match db.GetCollection cn with
      | .error er => .error er
      | .ok coll =>
        match coll.CreateIndex iname fname with
        | .error er => .error er
        | .ok coll2 => .ok (dm.putDatabase (db.putCollection coll2))

/-- Look up a document after a mutation (the update handler re-reads the
updated document via `FindByID` before logging it). -/
def findDocAfter (dm : DatabaseManager) (dbn cn id : String) :
    Option Document :=
  match dm.GetDatabase dbn with
  | none => none
  | some db =>
    match alookup db.collections cn with
    | none => none
    | some coll => alookup coll.documents id

/-- The WAL entry the storage manager logs for a successful mutation
(`LogInsert`, `LogUpdate`, `LogDelete`, `LogCreateDatabase`,
`LogCreateCollection`, `LogCreateIndex`; storage.go lines 479-616),
before offset assignment.  `LogCreateCollection` serializes only the
schema as `Data` (nil for a nil schema); `LogUpdate` serializes the full
post-image document re-read from the updated state. -/
def logEntryFor (m : Mutation) (post : DatabaseManager) : WALEntry :=
  match m with
  | .createDatabase n =>
    { offset := 0, database := n, collection := "",
      operation := WALOpCreateDatabase, documentId := "", data := none,
      encSize := 0 }
  | .createCollection dbn cn schema =>
    { offset := 0, database := dbn, collection := cn,
      operation := WALOpCreateCollection, documentId := "",
      data := schema.map marshalSchema, encSize := 0 }
  | .insertDoc dbn cn doc =>
    { offset := 0, database := dbn, collection := cn,
      operation := WALOpInsert, documentId := doc.id,
      data := some (marshalDocument doc), encSize := 0 }
  | .updateDoc dbn cn id _ =>
    { offset := 0, database := dbn, collection := cn,
      operation := WALOpUpdate, documentId := id,
      data := (findDocAfter post dbn cn id).map marshalDocument,
      encSize := 0 }
  | .deleteDoc dbn cn id =>
    { offset := 0, database := dbn, collection := cn,
      operation := WALOpDelete, documentId := id, data := none,
      encSize := 0 }
  | .createIdx dbn cn iname fname =>
    { offset := 0, database := dbn, collection := cn,
      operation := WALOpCreateIndex, documentId := "",
      data := some (.obj [("index_name", .str iname),
        ("field_name", .str fname)]), encSize := 0 }

/-- Run a mutation sequence through the engine against an initially empty
root: apply each mutation in memory, and on success append its WAL entry
with the next offset (offsets start at 0, `loadCheckpoint` with no
checkpoint file).  Returns the final state and the logged entries. -/
def runWithLog (dm : DatabaseManager) (cur : Nat) (ms : List Mutation) :
    Except DbError (DatabaseManager × List WALEntry) :=
  match ms with
  | [] => .ok (dm, [])
  | m :: rest =>
    match applyMutation dm m with
    | .error er => .error er
    | .ok dm2 =>
      let p := assignOffset cur (logEntryFor m dm2)
      match runWithLog dm2 p.2 rest with
      | .error er => .error er
      | .ok q => .ok (q.1, p.1 :: q.2)

/-- Whether an `Except` computation failed. -/
def isErr {ε α : Type} (x : Except ε α) : Bool :=
  match x with
  | .error _ => true
  | .ok _ => false

/-- The state a reopen reconstructs when no background flush ran before
the process stopped: collection files and checkpoint file absent, so the
in-memory model is rebuilt purely by replaying every logged entry
(checkpoint offset 0, and `readWALFile` keeps every entry with offset
at least 0) against an empty manager. -/
def reopenFromWalOnly (entries : List WALEntry) :
    Except DbError DatabaseManager :=
  replayAll NewDatabaseManager
    (readWALFileEntries entries (loadCheckpoint none).1.offset)

/-! ## Concrete instances used by counterexamples and witnesses -/

/-- A WAL entry with a given offset, for the replay boundary check. -/
def c2entryAt (off : Nat) : WALEntry :=
  { offset := off, database := "d", collection := "c",
    operation := WALOpInsert, documentId := "x", data := none, encSize := 0 }

/-- A one-field document with ID `x`. -/
def c2doc : Document :=
  { id := "x", data := [("n", .num 1)] }

/-- The insert entry at offset 4 as `LogInsert` would have produced it. -/
def c2insertEntry : WALEntry :=
  { offset := 4, database := "d", collection := "c",
    operation := WALOpInsert, documentId := "x",
    data := some (marshalDocument c2doc), encSize := 0 }

/-- The in-memory state a reopen loads from collection files when the
checkpoint sits at offset 4 and the offset-4 insert of `c2doc` has
already been flushed: database `d`, collection `c` holding `c2doc`. -/
def c2loadedState : DatabaseManager :=
  { databases := [("d",
    { name := "d", collections := [("c",
      { name := "c", schema := none
        documents := [("x", c2doc)]
        indexes := [("_id",
          { name := "_id", fieldName := "_id", data := [("x", "x")] })] })] })] }

/-- A dirty set with one collection-level entry. -/
def c4dirty : List (String × DirtyEntry) :=
  [("d/c", { database := "d", collection := "c" })]

/-- The entries a run of synchronous appends stamps and writes, with
offsets assigned from the state's current offset. -/
def appendedEntries (st : WalState) (es : List WALEntry) : List WALEntry :=
  (assignOffsets st.currentOffset es).1

/-- The state after a successful run of synchronous appends that triggers
no rotation: offsets advanced by the number of entries, all entries
flushed to the current file and made durable by the final fsync. -/
def appendRunResult (st : WalState) (es : List WALEntry) : WalState :=
  { currentOffset := st.currentOffset + es.length
    currentSize := st.currentSize + entriesSize es
    batch := []
    writerBuf := []
    curFile := { name := st.curFile.name
                 osEntries := st.curFile.osEntries ++ appendedEntries st es
                 durableEntries := st.curFile.osEntries ++ appendedEntries st es }
    closedFiles := st.closedFiles }

/-- The highest entry offset present in any WAL file (0 when empty). -/
def maxWalOffset (st : WalState) : Nat :=
  ((walFileEntries st).map (fun e => e.offset)).foldl Nat.max 0

/-- The result of one successful `AppendEntrySync` that triggers no
rotation: the stamped entry, and the state with the whole pending batch
written, flushed and fsynced on the current file. -/
def appendSyncResult (st : WalState) (e : WALEntry) : WALEntry × WalState :=
  let e1 := { e with offset := st.currentOffset }
  (e1,
    { currentOffset := st.currentOffset + 1
      currentSize := st.currentSize + entriesSize st.batch + (8 + e.encSize)
      batch := []
      writerBuf := []
      curFile := { name := st.curFile.name
                   osEntries := st.curFile.osEntries ++ st.writerBuf ++
                     st.batch ++ [e1]
                   durableEntries := st.curFile.osEntries ++ st.writerBuf ++
                     st.batch ++ [e1] }
      closedFiles := st.closedFiles })

/-- The newest `WALRetentionCount` names in ascending sort order (all of
them when there are no more than that). -/
def newest2 (names : List String) : List String :=
  (sortNames names).drop ((sortNames names).length - WALRetentionCount)

/-- Environment for the C3 and C6 runs: system calls succeed. -/
def okEnv : WalEnv := { flushOk := true, syncOk := true, timestamp := 7 }

/-- A small entry to append (serialized length 10). -/
def smallEntry : WALEntry :=
  { offset := 0, database := "d", collection := "c",
    operation := WALOpInsert, documentId := "x", data := none, encSize := 10 }

/-- A WAL state whose current file already holds 64 MiB, as after
reopening a full WAL file: the very next flushed append rotates. -/
def fullFileState : WalState :=
  { currentOffset := 9
    currentSize := WALMaxSize
    batch := []
    writerBuf := []
    curFile := { name := "wal-1-000000.log", osEntries := [],
                 durableEntries := [] }
    closedFiles := [] }

/-- The stamped entry of the rotation counterexample. -/
def rotStampedEntry : WALEntry :=
  { smallEntry with offset := 9 }

/-- The state `AppendEntrySync okEnv smallEntry fullFileState` returns:
the rotation closed the old file with the entry only OS-buffered, and the
final fsync hit the freshly opened empty file, so no file holds the entry
durably. -/
def rotResultState : WalState :=
  { currentOffset := 10
    currentSize := 0
    batch := []
    writerBuf := []
    curFile := { name := "wal-7-000010.log", osEntries := [],
                 durableEntries := [] }
    closedFiles := [{ name := "wal-1-000000.log",
                      osEntries := [rotStampedEntry], durableEntries := [] }] }

/-- A three-file WAL state about to rotate, for the retention witness. -/
def threeFileState : WalState :=
  { currentOffset := 3
    currentSize := WALMaxSize
    batch := [smallEntry]
    writerBuf := []
    curFile := { name := "wal-2-000002.log", osEntries := [],
                 durableEntries := [] }
    closedFiles := [{ name := "wal-1-000001.log", osEntries := [],
                      durableEntries := [] }] }

/-- Environment for the retention witness rotation. -/
def rotEnv : WalEnv := { flushOk := true, syncOk := true, timestamp := 3 }

/-- A one-field number schema for the round-trip run. -/
def c1schema : Schema :=
  { fields := [("n", { type := .tNumber, required := false })] }

/-- The document inserted in the round-trip run. -/
def c1doc : Document := { id := "x", data := [("n", .num 1)] }

/-- The mutation sequence of the round-trip run: create a database, a
collection with a schema, and insert one valid document. -/
def c1muts : List Mutation :=
  [.createDatabase "d", .createCollection "d" "c" (some c1schema),
   .insertDoc "d" "c" c1doc]

/-- The direct run of the sequence through the engine, logging each
mutation as `LogCreateDatabase`/`LogCreateCollection`/`LogInsert` do. -/
def c1run : Except DbError (DatabaseManager × List WALEntry) :=
  runWithLog NewDatabaseManager 0 c1muts

/-- The state a reopen rebuilds from the logged entries alone (no flush
ran, so no collection files and no checkpoint file exist). -/
def c1reopen : Except DbError DatabaseManager :=
  match c1run with
  | .error er => .error er
  | .ok q => reopenFromWalOnly q.2

end FeatherDB

namespace FeatherDB

/-! # Theorems -/

/-! ## Association-list helper lemmas -/

theorem alookup_cons {β : Type} (k0 : String) (v0 : β) (rest : List (String × β))
    (k : String) :
    alookup ((k0, v0) :: rest) k =
      if k0 == k then some v0 else alookup rest k := by
  simp only [alookup, List.find?]
  cases h : (k0 == k) with
  | true => simp
  | false => simp

theorem ainsert_eq_append {β : Type} (m : List (String × β)) (k : String)
    (v : β) (h : alookup m k = none) : ainsert m k v = m ++ [(k, v)] := by
  induction m with
  | nil => rfl
  | cons p rest ih =>
    obtain ⟨k0, v0⟩ := p
    rw [alookup_cons] at h
    by_cases hk : (k0 == k)
    · simp [hk] at h
    · have h2 : alookup rest k = none := by simpa [hk] using h
      simp [ainsert, hk, ih h2]

/-! ## C10 -/

/-- C10: `ValidateType` with field type `date` returns true for every Go
string value (regardless of ISO-8601 validity) and for `time.Time`
values, and false for every other value; consequently schema validation
of a required `date` field accepts an arbitrary string. -/
theorem validateType_date_accepts_any_string :
    (∀ s : String, ValidateType (.vString s) .tDate = true) ∧
    ValidateType .vTime .tDate = true ∧
    (∀ v : GoValue, (∀ s, v ≠ .vString s) → v ≠ .vTime →
      ValidateType v .tDate = false) ∧
    (∀ (fieldName s : String),
      validateDocumentData
        (some { fields := [(fieldName, { type := .tDate, required := true })] })
        [(fieldName, .str s)] = true) := by
  refine ⟨fun s => rfl, rfl, fun v h1 h2 => ?_, fun fieldName s => ?_⟩
  · cases v with
    | vString s => exact absurd rfl (h1 s)
    | vTime => exact absurd rfl h2
    | _ => rfl
  · simp [validateDocumentData, alookup_cons, validateTypeJSON]

/-- Witness for C10 at concrete inputs. -/
theorem validateType_date_accepts_any_string_witness :
    ValidateType (.vString "not a date") .tDate = true ∧
    ValidateType (.vBool true) .tDate = false ∧
    validateDocumentData
      (some { fields := [("when", { type := .tDate, required := true })] })
      [("when", .str "not a date")] = true := by
  refine ⟨?_, ?_, ?_⟩
  · exact validateType_date_accepts_any_string.1 "not a date"
  · exact validateType_date_accepts_any_string.2.2.1 (.vBool true)
      (fun s => by simp) (by simp)
  · exact validateType_date_accepts_any_string.2.2.2 "when" "not a date"

/-! ## C9 -/

/-- C9: `DatabaseManager.CreateDatabase` never fails and is idempotent:
with an existing database of that name it returns that object unchanged
and leaves the map untouched; with a new name it appends exactly one
entry holding a fresh empty database. -/
theorem createDatabase_idempotent (dm : DatabaseManager) (name : String) :
    (∀ db, alookup dm.databases name = some db →
      dm.CreateDatabase name = (db, dm)) ∧
    (alookup dm.databases name = none →
      dm.CreateDatabase name =
        (NewDatabase name,
          { databases := dm.databases ++ [(name, NewDatabase name)] })) := by
  constructor
  · intro db h
    simp only [DatabaseManager.CreateDatabase, h]
  · intro h
    simp only [DatabaseManager.CreateDatabase, h, ainsert_eq_append _ _ _ h]

/-- Witness for C9: a manager holding `a`; re-creating `a` returns the
existing database unchanged, creating `b` appends exactly one entry. -/
theorem createDatabase_idempotent_witness :
    (DatabaseManager.mk [("a", NewDatabase "a")]).CreateDatabase "a" =
      (NewDatabase "a", DatabaseManager.mk [("a", NewDatabase "a")]) ∧
    (DatabaseManager.mk [("a", NewDatabase "a")]).CreateDatabase "b" =
      (NewDatabase "b",
        DatabaseManager.mk [("a", NewDatabase "a"), ("b", NewDatabase "b")]) := by
  constructor
  · exact (createDatabase_idempotent (DatabaseManager.mk
      [("a", NewDatabase "a")]) "a").1 (NewDatabase "a") rfl
  · exact (createDatabase_idempotent (DatabaseManager.mk
      [("a", NewDatabase "a")]) "b").2 rfl

/-! ## C2 -/

/-- C2 (claim refuted, code bug): with checkpoint offset `C`, replay
selects entries with offset greater than or equal to `C`, not strictly
greater: the entry whose offset equals the checkpoint is selected and
re-applied.  Evaluated at the failing input: checkpoint 4 and WAL entries
at offsets 4 and 5 — both are selected, and re-applying the offset-4
insert against the state already loaded from collection files aborts the
recovery with a conflict. -/
theorem replay_reapplies_checkpoint_offset_entry :
    replaySelectedEntries [[c2entryAt 4, c2entryAt 5]] { offset := 4 } =
      [c2entryAt 4, c2entryAt 5] ∧
    isErr (replayAll c2loadedState
      (replaySelectedEntries [[c2insertEntry]] { offset := 4 })) = true := by
  constructor
  · rfl
  · rfl

/-! ## C5 -/

/-- C5 (counterexample): when no checkpoint file exists, `loadCheckpoint`
leaves the next offset at 0, not at `checkpoint.offset + 1 = 1` as the
claim states. -/
theorem loadCheckpoint_missing_file_not_offset_plus_one :
    loadCheckpoint none = ({ offset := 0 }, 0) ∧
    (loadCheckpoint none).2 ≠ (loadCheckpoint none).1.offset + 1 := by
  exact ⟨rfl, by decide⟩

/-- C5 (amended): within a run, appended offsets are consecutive
(`cur, cur+1, ...`, strictly increasing with no gaps) and the counter ends
at `cur + n`; on open the next offset is `checkpoint.offset + 1` when a
checkpoint file exists, and 0 (with default checkpoint offset 0) when no
checkpoint file exists. -/
theorem assignOffsets_spec (cur : Nat) (es : List WALEntry) :
    ((assignOffsets cur es).1.map (fun e => e.offset) =
      List.range' cur es.length) ∧
    (assignOffsets cur es).2 = cur + es.length := by
  induction es generalizing cur with
  | nil => simp [assignOffsets]
  | cons e rest ih =>
    have h := ih (cur + 1)
    refine ⟨?_, ?_⟩
    · simp only [assignOffsets, assignOffset, List.map_cons, List.length_cons,
        List.range'_succ, h.1]
    · simp only [assignOffsets, assignOffset, List.length_cons, h.2]
      omega

theorem wal_offsets_consecutive :
    (∀ cp : WALCheckpoint, loadCheckpoint (some cp) = (cp, cp.offset + 1)) ∧
    loadCheckpoint none = ({ offset := 0 }, 0) ∧
    (∀ (cur : Nat) (es : List WALEntry),
      ((assignOffsets cur es).1.map (fun e => e.offset) =
        List.range' cur es.length) ∧
      (assignOffsets cur es).2 = cur + es.length) :=
  ⟨fun _ => rfl, rfl, fun cur es => assignOffsets_spec cur es⟩

/-! ## C4 -/

/-- C4 (claim refuted, code bug): a background-flush cycle in which the
single dirty entry fails to save re-queues that entry, but still calls
`sm.Checkpoint()` — the checkpoint is advanced even though the batch did
not succeed. -/
theorem syncDirty_checkpoints_despite_failure :
    syncDirtyToStorage c4dirty true (fun _ => true) (fun _ _ => true)
      (fun _ => false) =
      { newDirty := c4dirty, checkpointCalled := true } := by
  rfl

/-! ## WAL state machine lemmas -/

theorem entriesSize_cons (e : WALEntry) (l : List WALEntry) :
    entriesSize (e :: l) = (8 + e.encSize) + entriesSize l := by
  simp [entriesSize]

theorem entriesSize_append (l1 l2 : List WALEntry) :
    entriesSize (l1 ++ l2) = entriesSize l1 + entriesSize l2 := by
  simp [entriesSize]

theorem foldl_writeEntryLocked (l : List WALEntry) (st : WalState) :
    l.foldl writeEntryLocked st =
      { st with
        writerBuf := st.writerBuf ++ l
        currentSize := st.currentSize + entriesSize l } := by
  induction l generalizing st with
  | nil => simp [entriesSize]
  | cons e rest ih =>
    rw [List.foldl_cons, ih]
    simp [writeEntryLocked, entriesSize_cons]
    omega

theorem flushBatchLocked_ok_noRotate (env : WalEnv) (st : WalState)
    (hf : env.flushOk = true) (hne : st.batch.isEmpty = false)
    (hsize : st.currentSize + entriesSize st.batch < WALMaxSize) :
    flushBatchLocked env st = .ok
      { st with
        batch := []
        writerBuf := []
        currentSize := st.currentSize + entriesSize st.batch
        curFile := { st.curFile with
          osEntries := st.curFile.osEntries ++ st.writerBuf ++ st.batch } } := by
  rw [flushBatchLocked]
  simp only [hne, Bool.false_eq_true, if_false, foldl_writeEntryLocked, hf,
    if_true, writerFlush]
  rw [if_neg (by simp; omega)]
  simp [List.append_assoc]

theorem appendEntrySync_ok (env : WalEnv) (e : WALEntry) (st : WalState)
    (hf : env.flushOk = true) (hs : env.syncOk = true)
    (hsize : st.currentSize + entriesSize st.batch + (8 + e.encSize) <
      WALMaxSize) :
    AppendEntrySync env e st = .ok (appendSyncResult st e) := by
  have h0 : entriesSize ([] : List WALEntry) = 0 := rfl
  rw [AppendEntrySync]
  simp only [assignOffset]
  rw [flushBatchLocked_ok_noRotate env _ hf (by simp)
    (by simp only [entriesSize_append, entriesSize_cons, h0]; omega)]
  simp only [hs, if_true, fileSync, appendSyncResult,
    entriesSize_append, entriesSize_cons, h0]
  simp [List.append_assoc]
  omega

theorem runAppendsSync_ok (env : WalEnv) (es : List WALEntry) (st : WalState)
    (hf : env.flushOk = true) (hs : env.syncOk = true)
    (hb : st.batch = []) (hw : st.writerBuf = [])
    (hd : st.curFile.durableEntries = st.curFile.osEntries)
    (hsize : st.currentSize + entriesSize es < WALMaxSize) :
    runAppendsSync env es st = .ok (appendRunResult st es) := by
  induction es generalizing st with
  | nil =>
    rw [runAppendsSync]
    obtain ⟨co, cs, b, wb, cf, cl⟩ := st
    obtain ⟨nm, os, du⟩ := cf
    simp only at hb hw hd
    subst hb hw hd
    simp [appendRunResult, appendedEntries, assignOffsets, entriesSize]
  | cons e rest ih =>
    rw [runAppendsSync]
    rw [appendEntrySync_ok env e st hf hs
      (by
        rw [hb]
        rw [entriesSize_cons] at hsize
        have h0 : entriesSize ([] : List WALEntry) = 0 := rfl
        omega)]
    have hnext := ih ((appendSyncResult st e).2)
      (by simp [appendSyncResult])
      (by simp [appendSyncResult])
      (by simp [appendSyncResult])
      (by
        simp only [appendSyncResult, hb]
        rw [entriesSize_cons] at hsize
        have h0 : entriesSize ([] : List WALEntry) = 0 := rfl
        simp only [h0]
        omega)
    change runAppendsSync env rest (appendSyncResult st e).2 = _
    rw [hnext]
    obtain ⟨co, cs, b, wb, cf, cl⟩ := st
    obtain ⟨nm, os, du⟩ := cf
    simp only at hb hw hd
    subst hb hw hd
    simp only [appendSyncResult, appendRunResult, appendedEntries,
      assignOffsets, assignOffset, entriesSize_cons]
    simp [entriesSize]
    omega

/-! ## C3 -/

/-- C3 (counterexample): from a fresh WAL, one synchronous append of a
single entry followed by the storage manager's `Checkpoint` records
offset 1 in `wal.checkpoint`, while the highest entry offset present in
any WAL file is 0, not 1. -/
theorem checkpoint_records_next_offset_counterexample :
    runAppendsSync okEnv [smallEntry] (freshWalState "wal-7-000000.log") =
      .ok (appendRunResult (freshWalState "wal-7-000000.log") [smallEntry]) ∧
    StorageManager.CheckpointOffset
      (appendRunResult (freshWalState "wal-7-000000.log") [smallEntry]) = 1 ∧
    maxWalOffset
      (appendRunResult (freshWalState "wal-7-000000.log") [smallEntry]) = 0 ∧
    (1 : Nat) ≠ 0 := by
  refine ⟨rfl, rfl, rfl, by decide⟩

/-- C3 (amended): after a run of synchronous appends from a fresh WAL
(at least one entry, everything flushed, no rotation), the offset the
storage manager's `Checkpoint` records is the highest entry offset
present in any WAL file plus one — the next offset to assign, not the
highest offset itself. -/
theorem checkpoint_records_highest_offset_plus_one (env : WalEnv)
    (es : List WALEntry) (name : String)
    (hf : env.flushOk = true) (hs : env.syncOk = true)
    (hne : es ≠ []) (hsize : entriesSize es < WALMaxSize) :
    runAppendsSync env es (freshWalState name) =
      .ok (appendRunResult (freshWalState name) es) ∧
    StorageManager.CheckpointOffset (appendRunResult (freshWalState name) es) =
      maxWalOffset (appendRunResult (freshWalState name) es) + 1 := by
  constructor
  · exact runAppendsSync_ok env es (freshWalState name) hf hs rfl rfl rfl
      (by simpa [freshWalState] using hsize)
  · have hmap : (walFileEntries (appendRunResult (freshWalState name) es)).map
        (fun e => e.offset) = List.range' 0 es.length := by
      simp [walFileEntries, appendRunResult, appendedEntries, freshWalState,
        loadCheckpoint]
      exact (assignOffsets_spec 0 es).1
    have hlen : 1 ≤ es.length := by
      cases es with
      | nil => exact absurd rfl hne
      | cons a l => simp
    have hmax : ∀ (n a acc : Nat), 1 ≤ n →
        List.foldl Nat.max acc (List.range' a n) = Nat.max acc (a + n - 1) := by
      intro n
      induction n with
      | zero => intro a acc h; omega
      | succ m ihm =>
        intro a acc _
        rw [List.range'_succ, List.foldl_cons]
        cases Nat.eq_zero_or_pos m with
        | inl h0 => subst h0; simp
        | inr hpos =>
          rw [ihm (a + 1) (Nat.max acc a) hpos]
          simp only [Nat.max_def]
          split_ifs <;> omega
    simp only [StorageManager.CheckpointOffset, maxWalOffset, hmap]
    rw [hmax es.length 0 0 hlen]
    simp only [appendRunResult, freshWalState, loadCheckpoint, Nat.max_def]
    split_ifs <;> omega

/-- Witness for C3 (amended) at one concrete append. -/
theorem checkpoint_records_highest_offset_plus_one_witness :
    runAppendsSync okEnv [smallEntry] (freshWalState "wal-7-000000.log") =
      .ok (appendRunResult (freshWalState "wal-7-000000.log") [smallEntry]) ∧
    StorageManager.CheckpointOffset
      (appendRunResult (freshWalState "wal-7-000000.log") [smallEntry]) =
      maxWalOffset
        (appendRunResult (freshWalState "wal-7-000000.log") [smallEntry]) + 1 :=
  checkpoint_records_highest_offset_plus_one okEnv [smallEntry]
    "wal-7-000000.log" rfl rfl (by simp) (by decide)

/-! ## C6 -/

/-- C6 (amended): a successful `AppendEntrySync` has written the whole
pending batch to the WAL file writer, flushed it, and issued fsync on the
current file, so — provided the flush did not trigger rotation — the
stamped entry is durable on return and the batch is empty; a failing
flush or fsync surfaces as an error.  (When the flush does trigger
rotation, the fsync lands on the freshly opened file; see the
counterexample.) -/
theorem appendEntrySync_durable (env : WalEnv) (e : WALEntry) (st : WalState) :
    (env.flushOk = true → env.syncOk = true →
      st.currentSize + entriesSize st.batch + (8 + e.encSize) < WALMaxSize →
      AppendEntrySync env e st = .ok (appendSyncResult st e) ∧
      (appendSyncResult st e).1 ∈
        (appendSyncResult st e).2.curFile.durableEntries ∧
      (appendSyncResult st e).2.batch = []) ∧
    (env.flushOk = false → isErr (AppendEntrySync env e st) = true) ∧
    (env.flushOk = true → env.syncOk = false →
      isErr (AppendEntrySync env e st) = true) := by
  refine ⟨fun hf hs hsize => ⟨appendEntrySync_ok env e st hf hs hsize, ?_, rfl⟩,
    fun hf => ?_, fun hf hs => ?_⟩
  · simp [appendSyncResult]
  · rw [AppendEntrySync, flushBatchLocked]
    have hb : ((({ st with
        currentOffset := (assignOffset st.currentOffset e).2,
        batch := st.batch ++ [(assignOffset st.currentOffset e).1] } :
          WalState)).batch).isEmpty = false := by
      simp
    simp [hb, hf, isErr]
  · rw [AppendEntrySync]
    cases h : flushBatchLocked env { st with
        currentOffset := (assignOffset st.currentOffset e).2,
        batch := st.batch ++ [(assignOffset st.currentOffset e).1] } with
    | error er => simp [isErr]
    | ok st2 => simp [hs, isErr]

/-- Witness for C6 (amended): a concrete successful synchronous append is
durable, and flush/fsync failures error out. -/
theorem appendEntrySync_durable_witness :
    (AppendEntrySync okEnv smallEntry (freshWalState "wal-7-000000.log") =
      .ok (appendSyncResult (freshWalState "wal-7-000000.log") smallEntry) ∧
      (appendSyncResult (freshWalState "wal-7-000000.log") smallEntry).1 ∈
        (appendSyncResult (freshWalState "wal-7-000000.log")
          smallEntry).2.curFile.durableEntries ∧
      (appendSyncResult (freshWalState "wal-7-000000.log")
        smallEntry).2.batch = []) ∧
    isErr (AppendEntrySync { flushOk := false, syncOk := true, timestamp := 7 }
      smallEntry (freshWalState "wal-7-000000.log")) = true ∧
    isErr (AppendEntrySync { flushOk := true, syncOk := false, timestamp := 7 }
      smallEntry (freshWalState "wal-7-000000.log")) = true :=
  ⟨(appendEntrySync_durable okEnv smallEntry
      (freshWalState "wal-7-000000.log")).1 rfl rfl (by decide),
    (appendEntrySync_durable { flushOk := false, syncOk := true, timestamp := 7 }
      smallEntry (freshWalState "wal-7-000000.log")).2.1 rfl,
    (appendEntrySync_durable { flushOk := true, syncOk := false, timestamp := 7 }
      smallEntry (freshWalState "wal-7-000000.log")).2.2 rfl rfl⟩

/-- C6 (counterexample): when the flush inside `AppendEntrySync` triggers
rotation (file size at 64 MiB), the call still returns success, but the
fsync was issued on the freshly opened empty file: the just-appended
entry is OS-buffered in the closed previous file and durable nowhere. -/
theorem appendEntrySync_rotation_not_durable :
    AppendEntrySync okEnv smallEntry fullFileState =
      .ok (rotStampedEntry, rotResultState) ∧
    rotResultState.curFile.durableEntries = [] ∧
    rotResultState.closedFiles.map (fun f => f.durableEntries) = [[]] ∧
    rotResultState.closedFiles.map (fun f => f.osEntries) =
      [[rotStampedEntry]] := by
  refine ⟨rfl, rfl, rfl, rfl⟩

/-! ## String order and retention lemmas -/

theorem charListLe_refl (l : List Char) : charListLe l l = true := by
  induction l with
  | nil => rfl
  | cons c cs ih => simp [charListLe, ih]

theorem strLe_refl (a : String) : strLe a a = true :=
  charListLe_refl a.data

theorem char_eq_of_toNat_eq (a b : Char) (h : a.toNat = b.toNat) : a = b := by
  apply Char.eq_of_val_eq
  apply UInt32.eq_of_val_eq
  apply Fin.ext
  exact h

theorem charListLe_antisymm (as : List Char) : ∀ bs : List Char,
    charListLe as bs = true → charListLe bs as = true → as = bs := by
  induction as with
  | nil =>
    intro bs h1 h2
    cases bs with
    | nil => rfl
    | cons d ds => simp [charListLe] at h2
  | cons c cs ih =>
    intro bs h1 h2
    cases bs with
    | nil => simp [charListLe] at h1
    | cons d ds =>
      by_cases hcd : c.toNat < d.toNat
      · simp [charListLe, hcd, show ¬ d.toNat < c.toNat by omega] at h2
      · by_cases hdc : d.toNat < c.toNat
        · simp [charListLe, hcd, hdc] at h1
        · have hc : c = d := char_eq_of_toNat_eq c d (by omega)
          simp only [charListLe, hcd, hdc, if_false] at h1 h2
          rw [hc, ih ds h1 h2]

theorem strLe_antisymm (a b : String) (h1 : strLe a b = true)
    (h2 : strLe b a = true) : a = b := by
  have h := charListLe_antisymm a.data b.data h1 h2
  cases a
  cases b
  simp only at h
  rw [h]

theorem map_name_filter (l : List WalFileState) (p : String → Bool) :
    (l.filter (fun f => p f.name)).map (fun f => f.name) =
      (l.map (fun f => f.name)).filter p := by
  induction l with
  | nil => rfl
  | cons f rest ih =>
    by_cases h : p f.name
    · simp [List.filter_cons, h, ih]
    · simp [List.filter_cons, h, ih]

theorem filter_append_not_mem (t d : List String)
    (hnd : (t ++ d).Nodup) :
    (t ++ d).filter (fun n => !(t.contains n)) = d := by
  rw [List.filter_append]
  have h1 : t.filter (fun n => !(t.contains n)) = [] := by
    rw [List.filter_eq_nil_iff]
    intro a ha
    have hc : t.contains a = true := List.elem_eq_true_of_mem ha
    rw [hc]
    decide
  have h2 : d.filter (fun n => !(t.contains n)) = d := by
    rw [List.filter_eq_self]
    intro a ha
    rcases List.nodup_append.mp hnd with ⟨_, _, hdisj⟩
    have hat : a ∉ t := fun hat => hdisj hat ha
    cases hc : t.contains a with
    | false => rfl
    | true => exact absurd (List.mem_of_elem_eq_true hc) hat
  rw [h1, h2, List.nil_append]

theorem filter_not_mem_take (s : List String) (k : Nat) (hnd : s.Nodup) :
    s.filter (fun n => !((s.take k).contains n)) = s.drop k := by
  have h := filter_append_not_mem (s.take k) (s.drop k)
    (by rw [List.take_append_drop]; exact hnd)
  rwa [List.take_append_drop] at h

theorem not_mem_take_of_forall_le (s : List String) (k : Nat) (a : String)
    (hs : s.Sorted (fun x y => strLe x y = true)) (hnd : s.Nodup)
    (hk : k < s.length) (hmax : ∀ x ∈ s, strLe x a = true) :
    a ∉ s.take k := by
  intro hmem
  obtain ⟨y, hy⟩ : ∃ y, y ∈ s.drop k := by
    cases hdrop : s.drop k with
    | nil =>
      rw [List.drop_eq_nil_iff] at hdrop
      omega
    | cons z zs => exact ⟨z, List.mem_cons_self z zs⟩
  have hpairs : (s.take k ++ s.drop k).Pairwise
      (fun x y => strLe x y = true) := by
    rw [List.take_append_drop]
    exact hs
  have hay : strLe a y = true :=
    (List.pairwise_append.mp hpairs).2.2 a hmem y hy
  have hya : strLe y a = true := hmax y (List.mem_of_mem_drop hy)
  have hEq : y = a := strLe_antisymm y a hya hay
  subst hEq
  have hnd2 : (s.take k ++ s.drop k).Nodup := by
    rw [List.take_append_drop]
    exact hnd
  rcases List.nodup_append.mp hnd2 with ⟨_, _, hdisj⟩
  exact hdisj hmem hy

theorem cleanup_curFile (st : WalState) :
    (cleanupOldWALs st).curFile = st.curFile := by
  rw [cleanupOldWALs]
  split <;> rfl

theorem walFileNames_dropRemoved (st : WalState) (r : List String)
    (hp : r.contains st.curFile.name = false) :
    walFileNames { st with closedFiles := dropRemoved r st.closedFiles } =
      (walFileNames st).filter (fun n => !(r.contains n)) := by
  simp only [walFileNames, dropRemoved]
  rw [map_name_filter st.closedFiles (fun n => !(r.contains n)),
    List.filter_append, List.filter_singleton, hp]
  rfl

theorem cleanup_retention (st : WalState)
    (hnd : (walFileNames st).Nodup)
    (hmax : ∀ n ∈ walFileNames st, strLe n st.curFile.name = true) :
    (walFileNames (cleanupOldWALs st)).Perm (newest2 (walFileNames st)) := by
  have hrc : WALRetentionCount = 2 := rfl
  have hperm : (getWALFilesSorted st).Perm (walFileNames st) :=
    List.perm_insertionSort _ _
  have hnds : (getWALFilesSorted st).Nodup := hperm.symm.nodup hnd
  have hlensort : (getWALFilesSorted st).length =
      (sortNames (walFileNames st)).length := rfl
  rw [cleanupOldWALs]
  by_cases hlen : (getWALFilesSorted st).length ≤ WALRetentionCount
  · rw [if_pos hlen]
    have h0 : (sortNames (walFileNames st)).length - WALRetentionCount = 0 := by
      omega
    simp only [newest2, h0, List.drop_zero]
    exact hperm.symm
  · rw [if_neg hlen]
    have hsorted : (getWALFilesSorted st).Sorted
        (fun x y => strLe x y = true) :=
      List.sorted_insertionSort _ _
    have hcur : st.curFile.name ∉ (getWALFilesSorted st).take
        ((getWALFilesSorted st).length - WALRetentionCount) := by
      refine not_mem_take_of_forall_le _ _ _ hsorted hnds (by omega) ?_
      intro x hx
      exact hmax x (hperm.subset hx)
    have hpc : ((getWALFilesSorted st).take
        ((getWALFilesSorted st).length - WALRetentionCount)).contains
          st.curFile.name = false := by
      cases hc : ((getWALFilesSorted st).take
          ((getWALFilesSorted st).length - WALRetentionCount)).contains
            st.curFile.name with
      | false => rfl
      | true => exact absurd (List.mem_of_elem_eq_true hc) hcur
    rw [walFileNames_dropRemoved st _ hpc]
    have hchain := filter_not_mem_take (getWALFilesSorted st)
      ((getWALFilesSorted st).length - WALRetentionCount) hnds
    have hnew : newest2 (walFileNames st) =
        (getWALFilesSorted st).drop
          ((getWALFilesSorted st).length - WALRetentionCount) := rfl
    rw [hnew, ← hchain]
    exact (hperm.filter _).symm

theorem writerFlush_empty (st : WalState) (hw : st.writerBuf = []) :
    writerFlush st = st := by
  obtain ⟨co, cs, b, wb, cf, cl⟩ := st
  obtain ⟨nm, os, du⟩ := cf
  simp only at hw
  subst hw
  simp [writerFlush]

theorem rotateLocked_retention (env : WalEnv) (st : WalState)
    (hw : st.writerBuf = [])
    (hnd : (walFileNames st ++
      [mkWalName env.timestamp st.currentOffset]).Nodup)
    (hmax : ∀ n ∈ walFileNames st,
      strLe n (mkWalName env.timestamp st.currentOffset) = true) :
    (rotateLocked env st).curFile.name =
      mkWalName env.timestamp st.currentOffset ∧
    (walFileNames (rotateLocked env st)).Perm
      (newest2 (walFileNames st ++
        [mkWalName env.timestamp st.currentOffset])) := by
  have hrot : rotateLocked env st = cleanupOldWALs (openCurrentWAL env
      { st with closedFiles := st.closedFiles ++ [st.curFile] }) := by
    rw [rotateLocked]
    cases hf : env.flushOk with
    | true => rw [if_pos rfl, writerFlush_empty st hw]
    | false => rw [if_neg (by simp)]
  have hnamesS : walFileNames (openCurrentWAL env
      { st with closedFiles := st.closedFiles ++ [st.curFile] }) =
      walFileNames st ++ [mkWalName env.timestamp st.currentOffset] := by
    simp [openCurrentWAL, walFileNames]
  constructor
  · rw [hrot, cleanup_curFile]
    rfl
  · rw [hrot]
    refine (cleanup_retention _ ?_ ?_).trans ?_
    · rw [hnamesS]
      exact hnd
    · intro n hn
      rw [hnamesS] at hn
      rcases List.mem_append.mp hn with h | h
      · exact hmax n h
      · simp only [List.mem_singleton] at h
        subst h
        exact strLe_refl _
    · rw [hnamesS]

theorem flushBatchLocked_ok_rotate (env : WalEnv) (st : WalState)
    (hf : env.flushOk = true) (hne : st.batch.isEmpty = false)
    (hsize : WALMaxSize ≤ st.currentSize + entriesSize st.batch) :
    flushBatchLocked env st = .ok (rotateLocked env
      { st with
        batch := []
        writerBuf := []
        currentSize := st.currentSize + entriesSize st.batch
        curFile := { st.curFile with
          osEntries := st.curFile.osEntries ++ st.writerBuf ++ st.batch } }) := by
  rw [flushBatchLocked]
  simp only [hne, Bool.false_eq_true, if_false, foldl_writeEntryLocked, hf,
    if_true, writerFlush]
  rw [if_pos hsize]
  congr 1
  simp [List.append_assoc]

/-! ## C7 -/

/-- C7: rotation and retention.  With a nonempty batch and a working
flush, `flushBatchLocked` rotates exactly when the current file size has
reached 64 MiB after the flush: below the cap the file set and current
file are unchanged; at or above it the manager closes the current file,
opens a new WAL file named from the clock and current offset, and after
the successful rotation exactly the newest `WALRetentionCount = 2` WAL
files (by name sort order) remain in the root directory, the older ones
having been removed.  Hypotheses: directory names are distinct and the
new name is fresh and sorts last (WAL names embed a growing timestamp
and offset). -/
theorem walRotation_retention (env : WalEnv) (st : WalState)
    (hf : env.flushOk = true) (hne : st.batch.isEmpty = false)
    (hnd : (walFileNames st).Nodup)
    (hfresh : mkWalName env.timestamp st.currentOffset ∉ walFileNames st)
    (hmax : ∀ n ∈ walFileNames st,
      strLe n (mkWalName env.timestamp st.currentOffset) = true) :
    (st.currentSize + entriesSize st.batch < WALMaxSize →
      ∃ st2, flushBatchLocked env st = .ok st2 ∧
        walFileNames st2 = walFileNames st ∧
        st2.curFile.name = st.curFile.name) ∧
    (WALMaxSize ≤ st.currentSize + entriesSize st.batch →
      ∃ st2, flushBatchLocked env st = .ok st2 ∧
        st2.curFile.name = mkWalName env.timestamp st.currentOffset ∧
        (walFileNames st2).Perm
          (newest2 (walFileNames st ++
            [mkWalName env.timestamp st.currentOffset]))) := by
  constructor
  · intro hsize
    refine ⟨_, flushBatchLocked_ok_noRotate env st hf hne hsize, ?_, rfl⟩
    simp [walFileNames]
  · intro hsize
    refine ⟨_, flushBatchLocked_ok_rotate env st hf hne hsize, ?_, ?_⟩
    · exact (rotateLocked_retention env _ rfl
        (by simpa [walFileNames] using
          List.nodup_append.mpr ⟨hnd, List.nodup_singleton _,
            by
              intro a ha hb
              simp only [List.mem_singleton] at hb
              subst hb
              exact hfresh ha⟩)
        (by
          intro n hn
          simp only [walFileNames, List.map_append] at hn ⊢
          exact hmax n (by simpa [walFileNames] using hn))).1
    · exact (rotateLocked_retention env _ rfl
        (by simpa [walFileNames] using
          List.nodup_append.mpr ⟨hnd, List.nodup_singleton _,
            by
              intro a ha hb
              simp only [List.mem_singleton] at hb
              subst hb
              exact hfresh ha⟩)
        (by
          intro n hn
          simp only [walFileNames, List.map_append] at hn ⊢
          exact hmax n (by simpa [walFileNames] using hn))).2

/-- Witness for C7: a three-file rotation keeps exactly the newest two
WAL files. -/
theorem walRotation_retention_witness :
    ∃ st2, flushBatchLocked rotEnv threeFileState = .ok st2 ∧
      st2.curFile.name =
        mkWalName rotEnv.timestamp threeFileState.currentOffset ∧
      (walFileNames st2).Perm
        (newest2 (walFileNames threeFileState ++
          [mkWalName rotEnv.timestamp threeFileState.currentOffset])) :=
  (walRotation_retention rotEnv threeFileState rfl rfl (by decide) (by decide)
    (by decide)).2 (by decide)

/-! ## CRC-32 lemmas

The reflected CRC-32 step is linear over xor, maps only 0 to 0 on states
below `2 ^ 32`, and preserves that bound; hence an xor-difference injected
into the data stream survives to the final checksum. -/

theorem xor_div_two (a b : Nat) : (a ^^^ b) / 2 = a / 2 ^^^ b / 2 := by
  apply Nat.eq_of_testBit_eq
  intro i
  rw [Nat.testBit_xor, Nat.testBit_div_two, Nat.testBit_div_two,
    Nat.testBit_div_two, Nat.testBit_xor]

theorem xor_mod_two (a b : Nat) : (a ^^^ b) % 2 = (a % 2) ^^^ (b % 2) := by
  rw [← Nat.and_one_is_mod, ← Nat.and_one_is_mod, ← Nat.and_one_is_mod,
    Nat.and_xor_distrib_right]

theorem crcStep_linear (a b : Nat) :
    crcStep (a ^^^ b) = crcStep a ^^^ crcStep b := by
  rcases Nat.mod_two_eq_zero_or_one a with ha | ha <;>
    rcases Nat.mod_two_eq_zero_or_one b with hb | hb
  · simp only [crcStep, xor_mod_two, ha, hb]
    norm_num
    exact xor_div_two a b
  · simp only [crcStep, xor_mod_two, ha, hb]
    norm_num
    rw [xor_div_two, Nat.xor_assoc]
  · simp only [crcStep, xor_mod_two, ha, hb]
    norm_num
    rw [xor_div_two, Nat.xor_assoc, Nat.xor_assoc, Nat.xor_comm (b / 2) crcPoly]
  · simp only [crcStep, xor_mod_two, ha, hb]
    norm_num
    rw [xor_div_two]
    rw [Nat.xor_assoc, Nat.xor_comm crcPoly (b / 2 ^^^ crcPoly),
      Nat.xor_assoc, Nat.xor_self, Nat.xor_zero]

theorem crcStep_iterate_linear (n a b : Nat) :
    crcStep^[n] (a ^^^ b) = crcStep^[n] a ^^^ crcStep^[n] b := by
  induction n generalizing a b with
  | zero => rfl
  | succ m ih =>
    rw [Function.iterate_succ_apply, Function.iterate_succ_apply,
      Function.iterate_succ_apply, crcStep_linear, ih]

theorem crcStep_lt (t : Nat) (h : t < 2 ^ 32) : crcStep t < 2 ^ 32 := by
  rw [crcStep]
  split
  · exact Nat.xor_lt_two_pow (by omega) (by decide)
  · omega

theorem crcStep_iterate_lt (n t : Nat) (h : t < 2 ^ 32) :
    crcStep^[n] t < 2 ^ 32 := by
  induction n generalizing t with
  | zero => exact h
  | succ m ih =>
    rw [Function.iterate_succ_apply]
    exact ih _ (crcStep_lt t h)

theorem crcStep_eq_zero (t : Nat) (h : t < 2 ^ 32) (h0 : crcStep t = 0) :
    t = 0 := by
  rw [crcStep] at h0
  rcases Nat.mod_two_eq_zero_or_one t with ht | ht
  · rw [if_neg (by omega)] at h0
    omega
  · rw [if_pos ht, Nat.xor_eq_zero] at h0
    have hp : crcPoly = 3988292384 := rfl
    omega

theorem crcStep_iterate_ne_zero (n m : Nat) (hm : m ≠ 0) (hlt : m < 2 ^ 32) :
    crcStep^[n] m ≠ 0 := by
  induction n generalizing m with
  | zero => exact hm
  | succ k ih =>
    rw [Function.iterate_succ_apply]
    refine ih (crcStep m) ?_ (crcStep_lt m hlt)
    intro h0
    exact hm (crcStep_eq_zero m hlt h0)

theorem crcUpdate_xor (s d b : Nat) :
    crcUpdate (s ^^^ d) b = crcUpdate s b ^^^ crcStep^[8] d := by
  rw [crcUpdate, crcUpdate,
    show s ^^^ d ^^^ b = (s ^^^ b) ^^^ d by
      rw [Nat.xor_assoc, Nat.xor_assoc, Nat.xor_comm d b]]
  exact crcStep_iterate_linear 8 _ _

theorem foldl_crcUpdate_xor (l : List Nat) (s d : Nat) :
    l.foldl crcUpdate (s ^^^ d) =
      l.foldl crcUpdate s ^^^ crcStep^[8 * l.length] d := by
  induction l generalizing s d with
  | nil => simp
  | cons b t ih =>
    rw [List.foldl_cons, List.foldl_cons, crcUpdate_xor, ih,
      ← Function.iterate_add_apply]
    have h8 : 8 * t.length + 8 = 8 * (b :: t).length := by
      simp [List.length_cons]
      ring
    rw [h8]

theorem foldl_crcUpdate_lt (l : List Nat) (s : Nat) (hs : s < 2 ^ 32)
    (hb : ∀ b ∈ l, b < 256) : l.foldl crcUpdate s < 2 ^ 32 := by
  induction l generalizing s with
  | nil => exact hs
  | cons b t ih =>
    rw [List.foldl_cons]
    refine ih _ ?_ (fun x hx => hb x (List.mem_cons_of_mem b hx))
    rw [crcUpdate]
    refine crcStep_iterate_lt 8 _ (Nat.xor_lt_two_pow hs ?_)
    have := hb b (List.mem_cons_self b t)
    omega

theorem crc32_lt (p : List Nat) (hb : ∀ b ∈ p, b < 256) :
    crc32 p < 2 ^ 32 := by
  rw [crc32]
  exact Nat.xor_lt_two_pow (foldl_crcUpdate_lt p 0xFFFFFFFF (by decide) hb)
    (by decide)

theorem crc32_flip_ne (u v : List Nat) (x m : Nat) (hm : m ≠ 0)
    (hmlt : m < 2 ^ 32) :
    crc32 (u ++ (x ^^^ m) :: v) ≠ crc32 (u ++ x :: v) := by
  intro heq
  rw [crc32, crc32] at heq
  have h2 : (u ++ (x ^^^ m) :: v).foldl crcUpdate 0xFFFFFFFF =
      (u ++ x :: v).foldl crcUpdate 0xFFFFFFFF := by
    have h3 := congrArg (fun z => z ^^^ 0xFFFFFFFF) heq
    simpa [Nat.xor_cancel_right] using h3
  rw [List.foldl_append, List.foldl_append, List.foldl_cons,
    List.foldl_cons] at h2
  have h3 : crcUpdate (u.foldl crcUpdate 0xFFFFFFFF) (x ^^^ m) =
      crcUpdate (u.foldl crcUpdate 0xFFFFFFFF) x ^^^ crcStep^[8] m := by
    rw [crcUpdate, crcUpdate,
      show u.foldl crcUpdate 0xFFFFFFFF ^^^ (x ^^^ m) =
        (u.foldl crcUpdate 0xFFFFFFFF ^^^ x) ^^^ m from by
          rw [Nat.xor_assoc]]
    exact crcStep_iterate_linear 8 _ _
  rw [h3, foldl_crcUpdate_xor] at h2
  have h4 : crcStep^[8 * v.length] (crcStep^[8] m) = 0 := by
    have h6 := congrArg
      (fun w => v.foldl crcUpdate
        (crcUpdate (u.foldl crcUpdate 0xFFFFFFFF) x) ^^^ w) h2
    simp only at h6
    rwa [Nat.xor_cancel_left, Nat.xor_self] at h6
  rw [← Function.iterate_add_apply] at h4
  exact crcStep_iterate_ne_zero _ m hm hmlt h4

/-! ## Frame decoding lemmas -/

theorem readWALFrames_truncated (b0 b1 b2 b3 c0 c1 c2 c3 : Nat)
    (rest : List Nat) (h : rest.length < fromLE4 b0 b1 b2 b3) :
    readWALFrames (b0 :: b1 :: b2 :: b3 :: c0 :: c1 :: c2 :: c3 :: rest) =
      .error .truncated := by
  rw [readWALFrames, if_pos h]

theorem readWALFrames_single (len c0 c1 c2 c3 : Nat) (data : List Nat)
    (hlen : data.length = len) (h32 : len < 2 ^ 32) :
    readWALFrames (toLE4 len ++ c0 :: c1 :: c2 :: c3 :: data) =
      (if crc32 data = fromLE4 c0 c1 c2 c3 then .ok [data]
       else .error .checksumMismatch) := by
  have hfl : fromLE4 (len % 256) (len / 256 % 256) (len / 65536 % 256)
      (len / 16777216 % 256) = len := by
    rw [fromLE4]
    omega
  simp only [toLE4, List.cons_append, List.nil_append]
  rw [readWALFrames, hfl, if_neg (by omega)]
  rw [← hlen, List.take_length, List.drop_length]
  by_cases hc : crc32 data = fromLE4 c0 c1 c2 c3
  · simp only [hc, eq_self_iff_true, if_true]
    rw [readWALFrames]
  · simp only [hc, if_false]

theorem getD_cons_drop (l : List Nat) (k : Nat) (h : k < l.length) :
    l.take k ++ l.getD k 0 :: l.drop (k + 1) = l := by
  induction l generalizing k with
  | nil => simp at h
  | cons a t ih =>
    cases k with
    | zero => simp [List.getD]
    | succ m =>
      simp only [List.take_succ_cons, List.drop_succ_cons, List.cons_append,
        List.cons.injEq, true_and]
      have hm : m < t.length := by
        simp only [List.length_cons] at h
        omega
      have := ih m hm
      simpa [List.getD] using this

theorem pow_two_lt_256 (j : Nat) (h : j < 8) : 2 ^ j < 256 := by
  calc 2 ^ j < 2 ^ 8 := Nat.pow_lt_pow_right (by omega) h
  _ = 256 := by norm_num

theorem xor_pow_ne_self (x j : Nat) : x ^^^ 2 ^ j ≠ x := by
  intro h
  have h2 : x ^^^ 2 ^ j = x ^^^ 0 := by rwa [Nat.xor_zero]
  have h3 : (2 : Nat) ^ j = 0 := Nat.xor_right_inj.mp h2
  exact absurd h3 (Nat.pos_iff_ne_zero.mp (Nat.pos_pow_of_pos j (by omega)))

/-! ## C8 -/

/-- C8 (amended): the framed codec round-trips every payload shorter than
`2 ^ 32` bytes, and flipping any single bit of the CRC field or of the
payload bytes makes the reader fail with the checksum-mismatch corruption
error.  (A flip in the length field fails differently — see the
counterexample.) -/
theorem codec_roundtrip_and_bitflip (p : List Nat) (hb : ∀ b ∈ p, b < 256)
    (hlen : p.length < 2 ^ 32) :
    readWALFrames (encodeFrame p) = .ok [p] ∧
    (∀ i j, 4 ≤ i → i < 8 → j < 8 →
      readWALFrames (flipBit (encodeFrame p) i j) =
        .error .checksumMismatch) ∧
    (∀ i j, 8 ≤ i → i < 8 + p.length → j < 8 →
      readWALFrames (flipBit (encodeFrame p) i j) =
        .error .checksumMismatch) := by
  have hc32 : crc32 p < 2 ^ 32 := crc32_lt p hb
  have hfrom : fromLE4 (crc32 p % 256) (crc32 p / 256 % 256)
      (crc32 p / 65536 % 256) (crc32 p / 16777216 % 256) = crc32 p := by
    rw [fromLE4]; omega
  refine ⟨?_, ?_, ?_⟩
  · have hform : encodeFrame p =
        toLE4 p.length ++ (crc32 p % 256) :: (crc32 p / 256 % 256) ::
          (crc32 p / 65536 % 256) :: (crc32 p / 16777216 % 256) :: p := by
      simp [encodeFrame, toLE4]
    rw [hform, readWALFrames_single p.length _ _ _ _ p rfl hlen,
      if_pos hfrom.symm]
  · intro i j h4 h8 hj
    interval_cases i
    · have hform : flipBit (encodeFrame p) 4 j =
          toLE4 p.length ++ (crc32 p % 256 ^^^ 2 ^ j) :: (crc32 p / 256 % 256) :: (crc32 p / 65536 % 256) :: (crc32 p / 16777216 % 256) :: p := by
        simp [flipBit, encodeFrame, toLE4, List.getD, List.set]
      rw [hform, readWALFrames_single p.length _ _ _ _ p rfl hlen]
      rw [if_neg ?hc4]
      case hc4 =>
        intro heq
        rw [fromLE4] at heq
        have h256 : (2:Nat) ^ 8 = 256 := by norm_num
        have hd : (crc32 p % 256) < 2 ^ 8 := by rw [h256]; omega
        have hjj : (2:Nat) ^ j < 2 ^ 8 := by
          rw [h256]; exact pow_two_lt_256 j hj
        have hy := Nat.xor_lt_two_pow hd hjj
        rw [h256] at hy
        exact xor_pow_ne_self (crc32 p % 256) j (by omega)
    · have hform : flipBit (encodeFrame p) 5 j =
          toLE4 p.length ++ (crc32 p % 256) :: (crc32 p / 256 % 256 ^^^ 2 ^ j) :: (crc32 p / 65536 % 256) :: (crc32 p / 16777216 % 256) :: p := by
        simp [flipBit, encodeFrame, toLE4, List.getD, List.set]
      rw [hform, readWALFrames_single p.length _ _ _ _ p rfl hlen]
      rw [if_neg ?hc5]
      case hc5 =>
        intro heq
        rw [fromLE4] at heq
        have h256 : (2:Nat) ^ 8 = 256 := by norm_num
        have hd : (crc32 p / 256 % 256) < 2 ^ 8 := by rw [h256]; omega
        have hjj : (2:Nat) ^ j < 2 ^ 8 := by
          rw [h256]; exact pow_two_lt_256 j hj
        have hy := Nat.xor_lt_two_pow hd hjj
        rw [h256] at hy
        exact xor_pow_ne_self (crc32 p / 256 % 256) j (by omega)
    · have hform : flipBit (encodeFrame p) 6 j =
          toLE4 p.length ++ (crc32 p % 256) :: (crc32 p / 256 % 256) :: (crc32 p / 65536 % 256 ^^^ 2 ^ j) :: (crc32 p / 16777216 % 256) :: p := by
        simp [flipBit, encodeFrame, toLE4, List.getD, List.set]
      rw [hform, readWALFrames_single p.length _ _ _ _ p rfl hlen]
      rw [if_neg ?hc6]
      case hc6 =>
        intro heq
        rw [fromLE4] at heq
        have h256 : (2:Nat) ^ 8 = 256 := by norm_num
        have hd : (crc32 p / 65536 % 256) < 2 ^ 8 := by rw [h256]; omega
        have hjj : (2:Nat) ^ j < 2 ^ 8 := by
          rw [h256]; exact pow_two_lt_256 j hj
        have hy := Nat.xor_lt_two_pow hd hjj
        rw [h256] at hy
        exact xor_pow_ne_self (crc32 p / 65536 % 256) j (by omega)
    · have hform : flipBit (encodeFrame p) 7 j =
          toLE4 p.length ++ (crc32 p % 256) :: (crc32 p / 256 % 256) :: (crc32 p / 65536 % 256) :: (crc32 p / 16777216 % 256 ^^^ 2 ^ j) :: p := by
        simp [flipBit, encodeFrame, toLE4, List.getD, List.set]
      rw [hform, readWALFrames_single p.length _ _ _ _ p rfl hlen]
      rw [if_neg ?hc7]
      case hc7 =>
        intro heq
        rw [fromLE4] at heq
        have h256 : (2:Nat) ^ 8 = 256 := by norm_num
        have hd : (crc32 p / 16777216 % 256) < 2 ^ 8 := by rw [h256]; omega
        have hjj : (2:Nat) ^ j < 2 ^ 8 := by
          rw [h256]; exact pow_two_lt_256 j hj
        have hy := Nat.xor_lt_two_pow hd hjj
        rw [h256] at hy
        exact xor_pow_ne_self (crc32 p / 16777216 % 256) j (by omega)
  · intro i j h8 hlt hj
    obtain ⟨k, rfl⟩ := Nat.exists_eq_add_of_le h8
    have hk : k < p.length := by omega
    have hlen8 : (toLE4 p.length ++ toLE4 (crc32 p)).length = 8 := by
      simp [toLE4]
    have hidx : 8 + k - (toLE4 p.length ++ toLE4 (crc32 p)).length = k := by
      omega
    have hgd : (encodeFrame p).getD (8 + k) 0 = p.getD k 0 := by
      rw [encodeFrame, List.getD_eq_getElem?_getD,
        List.getElem?_append_right (by omega :
          (toLE4 p.length ++ toLE4 (crc32 p)).length ≤ 8 + k),
        hidx, List.getD_eq_getElem?_getD]
    have hset : flipBit (encodeFrame p) (8 + k) j =
        (toLE4 p.length ++ toLE4 (crc32 p)) ++
          p.set k (p.getD k 0 ^^^ 2 ^ j) := by
      rw [flipBit, hgd, encodeFrame, List.set_append, if_neg (by omega), hidx]
    rw [hset, List.append_assoc]
    have hdig : toLE4 (crc32 p) ++ p.set k (p.getD k 0 ^^^ 2 ^ j) =
        (crc32 p % 256) :: (crc32 p / 256 % 256) ::
          (crc32 p / 65536 % 256) :: (crc32 p / 16777216 % 256) ::
            p.set k (p.getD k 0 ^^^ 2 ^ j) := by
      simp [toLE4]
    rw [hdig, readWALFrames_single p.length _ _ _ _ _
      (by rw [List.length_set]) hlen]
    rw [if_neg ?hcp]
    case hcp =>
      intro heq
      rw [hfrom] at heq
      have hm : (2:Nat) ^ j ≠ 0 :=
        Nat.pos_iff_ne_zero.mp (Nat.pos_pow_of_pos j (by omega))
      have hmlt : (2:Nat) ^ j < 2 ^ 32 := by
        have h1 := pow_two_lt_256 j hj
        omega
      rw [List.set_eq_take_append_cons_drop, if_pos hk] at heq
      conv at heq => rhs; rw [(getD_cons_drop p k hk).symm]
      exact crc32_flip_ne (p.take k) (p.drop (k + 1)) (p.getD k 0) (2 ^ j)
        hm hmlt heq

/-- C8 (counterexample to the claim as stated): flipping bit 1 of the
length field of the frame for payload `[65]` makes the reader fail with a
truncation (IO) error, not with the checksum-mismatch `CorruptData`
error the claim promises for every bit flip. -/
theorem codec_lengthflip_not_corruptData :
    readWALFrames (flipBit (encodeFrame [65]) 0 1) = .error .truncated ∧
    WalReadError.truncated ≠ WalReadError.checksumMismatch := by
  constructor
  · have hform : flipBit (encodeFrame [65]) 0 1 =
        3 :: 0 :: 0 :: 0 :: (crc32 [65] % 256) :: (crc32 [65] / 256 % 256) ::
          (crc32 [65] / 65536 % 256) :: (crc32 [65] / 16777216 % 256) ::
            [65] := by
      simp [flipBit, encodeFrame, toLE4, List.getD, List.set]
    rw [hform]
    exact readWALFrames_truncated 3 0 0 0 _ _ _ _ [65] (by decide)
  · decide

/-- Witness for C8 (amended) at payload `[65]`: round-trip, a CRC-field
flip, and a payload flip. -/
theorem codec_roundtrip_and_bitflip_witness :
    readWALFrames (encodeFrame [65]) = .ok [[65]] ∧
    readWALFrames (flipBit (encodeFrame [65]) 5 0) =
      .error .checksumMismatch ∧
    readWALFrames (flipBit (encodeFrame [65]) 8 3) =
      .error .checksumMismatch :=
  ⟨(codec_roundtrip_and_bitflip [65] (by decide) (by decide)).1,
    (codec_roundtrip_and_bitflip [65] (by decide) (by decide)).2.1 5 0
      (by decide) (by decide) (by decide),
    (codec_roundtrip_and_bitflip [65] (by decide) (by decide)).2.2 8 3
      (by decide) (by decide) (by decide)⟩

/-! ## C1 -/

/-- C1: the round-trip fails.  The sequence create database `d`, create
collection `c` with a schema, insert a valid document runs through the
engine without error; but replaying the WAL it logged against an empty
manager fails, so the reopened state cannot equal the direct state.
`LogCreateCollection` (storage.go) stores only the marshalled schema in
`Data`, while `replayEntry` (wal.go) decodes `Data` as a
`{name, schema}` pair: replay therefore creates a collection named `""`
instead of `c`, and replaying the subsequent insert into `c` fails with
`ErrNotFound`. -/
theorem walLog_replay_roundtrip_broken :
    isErr c1run = false ∧ isErr c1reopen = true := ⟨rfl, rfl⟩

end FeatherDB
